import Mathlib

/-!
# mb-spv33: Modbus RTU to SP-link gateway

A shallow embedding of the protocol engine of the gateway firmware
(`lib/staff`, `lib/destaff`, `lib/mb_crc`, `lib/sp_crc`, `lib/sp_processing`,
`lib/uart1_task`, `lib/uart2_task`, `lib/sp_storage`, `lib/gw_nvs`,
`lib/parser`, `lib/data_tags`) together with theorems about it.

Conventions of the embedding:

* a byte (`uint8_t`) is a `Nat`; byte buffers are `List Nat`.  Functions that
  only compare and copy bytes are stated for arbitrary lists, which covers all
  byte buffers;
* `uint16_t` values are `Nat` reduced `% 65536` where the C code assigns to a
  16-bit variable; the `int` accumulator of `sp_crc16` is a 32-bit pattern
  reduced `% 4294967296`;
* file-scope variables (`stx_position`, `etx_position`, `regs`) are passed in
  and returned explicitly;
* object sizes are below `2^31` on the 32-bit target, so the `size_t` to `int`
  conversions of lengths are exact;
* `float` values are only copied by the code embedded here and are carried as
  their 32-bit patterns; the C library function `strtof` is a parameter;
* memory past the end of an object appears as an explicit argument (the bytes
  that follow it), so that a read or write beyond the object shows in the
  result.
-/

namespace MbSpv33

/-! ## Protocol constants (`include/project_config.h`) -/

/-- Start of header. -/
def SOH : Nat := 0x01
/-- Function code selector. -/
def ISI : Nat := 0x1F
/-- Start of text. -/
def STX : Nat := 0x02
/-- End of text. -/
def ETX : Nat := 0x03
/-- Escape prefix. -/
def DLE : Nat := 0x10

/-- Size of the UART buffers. -/
def UART_BUF_SIZE : Nat := 240
/-- Smallest buffer `deStaff` works on. -/
def BUF_MIN_SIZE : Nat := 4
/-- Largest Modbus frame that is accumulated. -/
def MAX_PDU_LENGTH : Nat := 240

/-- Size of a template file, also the register count of a window. -/
def SP_STORAGE_FILE_SIZE : Nat := 96
/-- Number of control registers. -/
def MAX_CONTROL_REGS : Nat := 32
/-- Number of registers of the read window. -/
def MAX_READ_REGS : Nat := SP_STORAGE_FILE_SIZE
/-- Number of registers of the raw output buffer. -/
def MAX_OUT_BUF_REGS : Nat := SP_STORAGE_FILE_SIZE
/-- Number of registers of the write window. -/
def MAX_WRITE_REGS : Nat := SP_STORAGE_FILE_SIZE
/-- Size of the register bank: `32 + 96 + 96 = 224`. -/
def MAX_REGS : Nat := MAX_CONTROL_REGS + MAX_READ_REGS + MAX_WRITE_REGS
/-- Number of registers persisted to NVS. -/
def MAX_PARAM_INDEX : Nat := 10
/-- Threshold of the raw mode. -/
def RAW_MODE_THRESHOLD : Nat := 0xFF00

/-! ## Byte stuffing (`lib/staff/staff.c`) -/

/-- The test of `staff.c` line 20: the byte is one of the four reserved markers. -/
def isMarker (b : Nat) : Bool :=
  b == SOH || b == ISI || b == STX || b == ETX

/-- The `for` loop of `staff`: the remaining input, the write index `j`, the
output buffer and its capacity.  Returns the `int` result and the output
buffer. -/
def staffLoop : List Nat → Nat → List Nat → Nat → Int × List Nat
  | [], j, output, _ => ((j : Int), output)
  | b :: rest, j, output, output_max_len =>
    let required := if isMarker b then 2 else 1
    if j + required > output_max_len then
      (0, output)
    else if b = SOH then
      staffLoop rest (j + 2) ((output.set j DLE).set (j + 1) SOH) output_max_len
    else if b = ISI then
      staffLoop rest (j + 2) ((output.set j DLE).set (j + 1) ISI) output_max_len
    else if b = STX then
      staffLoop rest (j + 2) ((output.set j DLE).set (j + 1) STX) output_max_len
    else if b = ETX then
      staffLoop rest (j + 2) ((output.set j DLE).set (j + 1) ETX) output_max_len
    else
      staffLoop rest (j + 1) (output.set j b) output_max_len

/-- The function `staff(input, input_len, output, output_max_len)`; `input` is
the list of the `input_len` bytes read, `output` the memory of the destination
buffer.  Returns the `int` result and the destination buffer after the call. -/
def staff (input : List Nat) (output : List Nat) (output_max_len : Nat) :
    Int × List Nat :=
  staffLoop input 0 output output_max_len

/-! ## Byte destuffing (`lib/destaff/destaff.c`) -/

/-- Outcome of one `deStaff` call: the returned `int`, the buffer (which is
both input and output) and the two file-scope position variables. -/
structure DeStaffResult where
  /-- Returned value. -/
  ret : Int
  /-- Buffer after the call. -/
  input : List Nat
  /-- File-scope variable `stx_position` after the call. -/
  stx_position : Int
  /-- File-scope variable `etx_position` after the call. -/
  etx_position : Int
deriving DecidableEq, Repr

/-- The `while (read_idx < len)` loop of `deStaff`.  Every iteration advances
`read_idx` by one, so `len - read_idx` iterations finish it; the first
argument counts them down.  Returns the buffer, `write_idx` and the two
positions. -/
def deStaffLoop : Nat → List Nat → Nat → Nat → Nat → Int → Int →
    List Nat × Nat × Int × Int
  | 0, input, _, _, write_idx, stx, etx => (input, write_idx, stx, etx)
  | fuel + 1, input, len, read_idx, write_idx, stx, etx =>
    if read_idx < len then
      if input.getD read_idx 0 = DLE ∧ read_idx + 1 < len then
        let next_byte := input.getD (read_idx + 1) 0
        let should_remove := next_byte == SOH || next_byte == STX ||
          next_byte == ETX || next_byte == ISI
        if should_remove then
          let stx1 := if next_byte = STX then (write_idx : Int) else stx
          let etx1 := if next_byte = ETX then (write_idx : Int) else etx
          deStaffLoop fuel input len (read_idx + 1) write_idx stx1 etx1
        else
          deStaffLoop fuel (input.set write_idx (input.getD read_idx 0)) len
            (read_idx + 1) (write_idx + 1) stx etx
      else
        deStaffLoop fuel (input.set write_idx (input.getD read_idx 0)) len
          (read_idx + 1) (write_idx + 1) stx etx
    else
      (input, write_idx, stx, etx)

/-- The function `deStaff(input, len)`, with the values of `stx_position` and
`etx_position` before the call as further arguments. -/
def deStaff (input : List Nat) (len : Nat) (stx_position etx_position : Int) :
    DeStaffResult :=
  if len = 0 then
    ⟨0, input, stx_position, etx_position⟩
  else if len < BUF_MIN_SIZE ∨ len > UART_BUF_SIZE * 2 then
    ⟨0, input, stx_position, etx_position⟩
  else
    let r := deStaffLoop len input len 0 0 stx_position etx_position
    let stx := r.2.2.1
    let etx := r.2.2.2
    if stx = -1 ∨ etx = -1 ∨ stx ≥ etx then
      ⟨-1, r.1, stx, etx⟩
    else
      ⟨(r.2.1 : Int), r.1, stx, etx⟩

/-- The C expression `(hi << 8) | lo` assigned to a `uint16_t`. -/
def be16 (hi lo : Nat) : Nat :=
  ((hi <<< 8) ||| lo) % 65536

/-! ## Modbus CRC16 (`lib/mb_crc/mb_crc.c`) -/

/-- The inner `for (j = 0; j < 8; j++)` loop of `mb_crc16` on the 16-bit
variable `crc`; the first argument is the number of iterations left. -/
def mbCrcBits : Nat → Nat → Nat
  | 0, crc => crc
  | n + 1, crc =>
    if crc &&& 0x0001 ≠ 0 then
      mbCrcBits n (((crc >>> 1) ^^^ 0xA001) % 65536)
    else
      mbCrcBits n (crc >>> 1)

/-- The outer loop of `mb_crc16` over the bytes of the buffer. -/
def mbCrcLoop : List Nat → Nat → Nat
  | [], crc => crc
  | b :: rest, crc => mbCrcLoop rest (mbCrcBits 8 ((crc ^^^ (b % 65536)) % 65536))

/-- The function `mb_crc16(buffer, length)`; `buffer` is the list of the
`length` bytes read. -/
def mb_crc16 (buffer : List Nat) : Nat :=
  mbCrcLoop buffer 0xFFFF

/-! ## SP CRC16 (`lib/sp_crc/sp_crc.c`) -/

/-- The inner bit loop of `sp_crc16`.  The accumulator `crc` is a C `int`; it
is kept as its 32-bit two's-complement pattern, on which `^` and `&` act bit
by bit, and a left shift drops the bits shifted out of the 32-bit word (the
behaviour of the target compiler), so every shift is reduced modulo `2^32`. -/
def spCrcBits : Nat → Nat → Nat
  | 0, crc => crc
  | n + 1, crc =>
    if crc &&& 0x8000 ≠ 0 then
      spCrcBits n (((crc <<< 1) % 4294967296) ^^^ 0x1021)
    else
      spCrcBits n ((crc <<< 1) % 4294967296)

/-- The `while (len-- > 0)` loop of `sp_crc16`: `crc = crc ^ (int)*msg++ << 8`
followed by the eight bit steps. -/
def spCrcLoop : List Nat → Nat → Nat
  | [], crc => crc
  | b :: rest, crc => spCrcLoop rest (spCrcBits 8 (crc ^^^ ((b <<< 8) % 4294967296)))

/-- The function `sp_crc16(msg, len)`: the `int` accumulator is truncated to
`uint16_t` by the `return`. -/
def sp_crc16 (msg : List Nat) : Nat :=
  spCrcLoop msg 0 % 65536

/-- Reference bit step of CRC-16/XMODEM on a 16-bit register: shift left, and
xor the polynomial `0x1021` in when the bit shifted out was set. -/
def xmodemBits : Nat → Nat → Nat
  | 0, crc => crc
  | n + 1, crc =>
    if crc &&& 0x8000 ≠ 0 then
      xmodemBits n (((crc <<< 1) ^^^ 0x1021) % 65536)
    else
      xmodemBits n ((crc <<< 1) % 65536)

/-- Reference CRC-16/XMODEM of the specification: polynomial `0x1021`, seed
`0`, each byte xored into the high half of the 16-bit register and processed
most significant bit first. -/
def crc16Xmodem (msg : List Nat) : Nat :=
  msg.foldl (fun crc b => xmodemBits 8 ((crc ^^^ (b <<< 8)) % 65536)) 0

/-! ## Inbound SP frames (`lib/sp_processing/sp_processing.c`) -/

/-- The file-scope and caller-owned variables `sp_exe_in` reads and writes. -/
structure SpState where
  /-- The register bank; `REG_SP_ERROR` is `regs[0x0A]`. -/
  regs : List Nat
  /-- Variable `commands` of `uart2_task.c`. -/
  commands : Nat
  /-- Variable `file_raw` of `uart2_task.c`. -/
  file_raw : Nat
  /-- Variable `stx_position` of `destaff.c`. -/
  stx_position : Int
  /-- Variable `etx_position` of `destaff.c`. -/
  etx_position : Int
  /-- The caller's `out_buf`. -/
  out_buf : List Nat
  /-- The caller's `*out_len`. -/
  out_len : Nat
deriving DecidableEq, Repr

/-- The exit taken by `sp_exe_in`. -/
inductive SpExit where
  /-- Frame shorter than 10 bytes. -/
  | shortFrame
  /-- Checksum rejected. -/
  | crcError
  /-- The `malloc` of the destuffing buffer failed. -/
  | allocError
  /-- The call `deStaff` returned `-1`. -/
  | markerError
  /-- Raw mode: payload copied to `out_buf`. -/
  | raw
  /-- Standard mode: payload parsed. -/
  | standard
deriving DecidableEq, Repr

/-- The checksum carried by the frame: `(data[data_len - 2] << 8) | data[data_len - 1]`. -/
def spReceivedCrc (data : List Nat) (data_len : Nat) : Nat :=
  be16 (data.getD (data_len - 2) 0) (data.getD (data_len - 1) 0)

/-- The checksum computed over the frame: `sp_crc16(data + 4, data_len - 6)`. -/
def spCalculatedCrc (data : List Nat) (data_len : Nat) : Nat :=
  sp_crc16 ((data.drop 4).take (data_len - 6))

/-- The raw-mode loop packing bytes two per word, `out_buf[i] = (high << 8) | low`. -/
def rawPack (temp_buf : List Nat) (destuffed_len : Nat) : Nat → Nat → List Nat → List Nat
  | 0, _, out_buf => out_buf
  | n + 1, i, out_buf =>
    let byte_idx := i * 2
    let high_byte := if byte_idx < destuffed_len then temp_buf.getD byte_idx 0 else 0
    let low_byte := if byte_idx + 1 < destuffed_len then temp_buf.getD (byte_idx + 1) 0 else 0
    rawPack temp_buf destuffed_len n (i + 1)
      (out_buf.set i (be16 high_byte low_byte))

/-- The function `sp_exe_in(data, data_len, out_buf, out_len)`.  `mallocOk`
tells whether the allocation of the destuffing buffer succeeds.  The
standard-mode tail (`parse_pack` and the template-guided extraction, which
write the read window and the tag store) is the parameter `standardTail`,
applied to the destuffed buffer and its length. -/
def sp_exe_in (standardTail : List Nat → Nat → SpState → SpState)
    (data : List Nat) (data_len : Nat) (mallocOk : Bool) (st : SpState) :
    SpExit × SpState :=
  if data_len < 10 then
    (.shortFrame, { st with out_len := 1, regs := st.regs.set 0x0A 0xFFFF })
  else
    let received_crc := spReceivedCrc data data_len
    let calculated_crc := spCalculatedCrc data data_len
    if received_crc ≠ calculated_crc then
      (.crcError, { st with out_len := 1, regs := st.regs.set 0x0A 0xFFFE })
    else if !mallocOk then
      (.allocError, { st with out_len := 1, regs := st.regs.set 0x0A 0xFFFD })
    else
      let temp_len := data_len - 4
      let d := deStaff ((data.drop 2).take temp_len) temp_len st.stx_position st.etx_position
      let st1 := { st with stx_position := d.stx_position, etx_position := d.etx_position }
      if d.ret = -1 then
        (.markerError, { st1 with regs := st1.regs.set 0x0A 0xFFFC })
      else
        let destuffed_len := d.ret.toNat
        let temp_buf := d.input
        let st2 := { st1 with commands := st1.commands ||| temp_buf.getD 4 0 }
        if st2.file_raw &&& RAW_MODE_THRESHOLD = RAW_MODE_THRESHOLD then
          let max_bytes := MAX_OUT_BUF_REGS
          let destuffed_len := if destuffed_len > max_bytes then max_bytes else destuffed_len
          let out_len := (destuffed_len + 1) / 2
          (.raw, { st2 with out_len := out_len,
                            out_buf := rawPack temp_buf destuffed_len out_len 0 st2.out_buf })
        else
          let st3 := standardTail temp_buf destuffed_len st2
          (.standard, { st3 with out_len := 1, out_buf := st3.out_buf.set 0 0x0000 })

/-! ## Persisted parameters (`lib/gw_nvs/gw_nvs.c`, `include/project_config.h`) -/

/-- Number of parameters that have metadata. -/
def PARAMS_COUNT : Nat := 10

/-- The table `param_meta`: minimum, maximum and default of each parameter. -/
def param_meta : List (Nat × Nat × Nat) :=
  [(0, 999, 110), (0, 250, 0x04), (0, 9, 0x05), (2, 10, 0x04), (0, 29, 0x00),
   (0, 255, 0x80), (0, 9, 0x09), (4, 100, 40), (0, 511, 0), (0, 2, 2)]

/-- The function `clamp_parameter_value(index, value)`; the index comes from a
`uint16_t`, so it is never negative. -/
def clamp_parameter_value (index value : Nat) : Nat :=
  if index ≥ PARAMS_COUNT then
    value
  else
    let m := param_meta.getD index (0, 0, 0)
    if value < m.1 then m.1
    else if value > m.2.1 then m.2.1
    else value

/-- The function `write_parameter_to_nvs(i, value)` as far as the register
bank goes: `regs[i] = corrected_value`.  The flash transaction that follows
does not touch the registers and is not modelled. -/
def write_parameter_to_nvs (regs : List Nat) (i value : Nat) : List Nat :=
  if i ≥ MAX_PARAM_INDEX then
    regs
  else
    regs.set i (clamp_parameter_value i value)

/-! ## Modbus RTU slave (`lib/uart1_task/uart1_task.c`) -/

/-- The function `generate_error(error_code)` with the file-scope `mb_addr`
and `mb_func` as arguments; returns the five bytes of `error_mb`. -/
def generate_error (mb_addr mb_func error_code : Nat) : List Nat :=
  let b0 := mb_addr
  let b1 := (mb_func ||| 0x80) % 256
  let b2 := error_code
  let error_mb_crc := mb_crc16 [b0, b1, b2]
  [b0, b1, b2, error_mb_crc &&& 0xFF, (error_mb_crc >>> 8) % 256]

/-- The copy loop of `send_register_data`: the high byte and the low byte of
each of the `count` registers from `start_reg`. -/
def registerBytes (regs : List Nat) (start_reg : Nat) : Nat → Nat → List Nat
  | 0, _ => []
  | n + 1, i =>
    let value := regs.getD (start_reg + i) 0
    ((value >>> 8) &&& 0xFF) :: (value &&& 0xFF) :: registerBytes regs start_reg n (i + 1)

/-- The function `send_register_data(slave_addr, start_reg, count)`: the bytes
of `response` handed to `uart_write_bytes`.  `response[2]` is a `uint8_t`. -/
def send_register_data (regs : List Nat) (slave_addr start_reg count : Nat) : List Nat :=
  let head := [slave_addr, 0x03, (2 * count) % 256] ++ registerBytes regs start_reg count 0
  let crc := mb_crc16 head
  head ++ [crc &&& 0xFF, (crc >>> 8) % 256]

/-- The write loop of function `0x10`: `regs[mb_reg + i] = (data_buf[7 + 2 * i] << 8) | data_buf[8 + 2 * i]`. -/
def writeRegisters (data_buf : List Nat) (mb_reg : Nat) : Nat → Nat → List Nat → List Nat
  | 0, _, regs => regs
  | n + 1, i, regs =>
    let value := be16 (data_buf.getD (7 + 2 * i) 0) (data_buf.getD (8 + 2 * i) 0)
    writeRegisters data_buf mb_reg n (i + 1) (regs.set (mb_reg + i) value)

/-- What `uart1_task` does with one completed frame. -/
structure MbResult where
  /-- Bytes written to the UART, `none` when nothing is sent. -/
  response : Option (List Nat)
  /-- The register bank afterwards. -/
  regs : List Nat
  /-- The call `write_parameter_to_nvs(index, value)`, if made. -/
  nvs : Option (Nat × Nat)
  /-- Variable `actual_bytes` afterwards, when function `0x10` set it. -/
  actual_bytes : Option Nat
deriving DecidableEq, Repr

/-- The body of `uart1_task` run on a completed frame (lines 150-337):
`data_buf` is the memory of the frame buffer, `data_len` the number of bytes
received into it. -/
def uart1_frame (regs : List Nat) (data_buf : List Nat) (data_len : Nat) : MbResult :=
  if data_len < 4 then
    ⟨none, regs, none, none⟩
  else if data_buf.getD 0 0 ≠ regs.getD 0x01 0 then
    ⟨none, regs, none, none⟩
  else
    let received_crc := be16 (data_buf.getD (data_len - 1) 0) (data_buf.getD (data_len - 2) 0)
    let calculated_crc := mb_crc16 (data_buf.take (data_len - 2))
    if received_crc ≠ calculated_crc then
      ⟨none, regs, none, none⟩
    else
      let mb_addr := data_buf.getD 0 0
      let mb_func := data_buf.getD 1 0
      let mb_reg := be16 (data_buf.getD 2 0) (data_buf.getD 3 0)
      let mb_regs := be16 (data_buf.getD 4 0) (data_buf.getD 5 0)
      if mb_func = 0x03 then
        if mb_reg ≥ MAX_REGS ∨ mb_reg + mb_regs > MAX_REGS ∨ mb_regs = 0 then
          ⟨some (generate_error mb_addr mb_func 0x02), regs, none, none⟩
        else
          ⟨some (send_register_data regs mb_addr mb_reg mb_regs), regs, none, none⟩
      else if mb_func = 0x06 then
        if (mb_reg ≥ MAX_CONTROL_REGS ∧ mb_reg < MAX_REGS - MAX_WRITE_REGS) ∨
            mb_reg > MAX_REGS - 1 then
          ⟨some (generate_error mb_addr mb_func 0x02), regs, none, none⟩
        else
          let value := be16 (data_buf.getD 4 0) (data_buf.getD 5 0)
          let head := data_buf.take 6
          let crc := mb_crc16 head
          let regs1 := regs.set mb_reg value
          let regs2 :=
            if mb_reg < MAX_PARAM_INDEX then write_parameter_to_nvs regs1 mb_reg value
            else regs1
          ⟨some (head ++ [crc &&& 0xFF, (crc >>> 8) % 256]), regs2,
            if mb_reg < MAX_PARAM_INDEX then some (mb_reg, value) else none, none⟩
      else if mb_func = 0x10 then
        if mb_reg < MAX_CONTROL_REGS ∨ mb_reg > MAX_REGS - 1 then
          ⟨some (generate_error mb_addr mb_func 0x02), regs, none, none⟩
        else if mb_regs = 0 ∨ mb_regs > MAX_REGS ∨ data_buf.getD 6 0 ≠ 2 * mb_regs then
          ⟨some (generate_error mb_addr mb_func 0x03), regs, none, none⟩
        else
          let regs1 := writeRegisters data_buf mb_reg mb_regs 0 regs
          let actual_bytes := data_buf.getD 6 0
          let actual_bytes :=
            if data_buf.getD (data_len - 5) 0 = 0x0C ∧ data_buf.getD (data_len - 4) 0 = 0x03 then
              (actual_bytes + 255) % 256
            else actual_bytes
          let head := [mb_addr, 0x10, data_buf.getD 2 0, data_buf.getD 3 0,
            data_buf.getD 4 0, data_buf.getD 5 0]
          let crc := mb_crc16 head
          ⟨some (head ++ [crc &&& 0xFF, (crc >>> 8) % 256]), regs1, none, some actual_bytes⟩
      else
        ⟨some (generate_error mb_addr mb_func 0x01), regs, none, none⟩

/-- The frame buffer of `uart1_task`: the pointer `data_buf` (`none` is
`NULL`, otherwise the memory of the block), `data_len` and `last_rx_time`. -/
structure Uart1Buffer where
  /-- The block `data_buf` points to, `none` when it is `NULL`. -/
  data_buf : Option (List Nat)
  /-- Number of bytes collected. -/
  data_len : Nat
  /-- Tick count of the last reception. -/
  last_rx_time : Nat
deriving DecidableEq, Repr

/-- The call `memcpy(dst + off, src, src.length)`. -/
def memcpy (dst : List Nat) (off : Nat) (src : List Nat) : List Nat :=
  dst.take off ++ src ++ dst.drop (off + src.length)

/-- The reception part of one pass of the task loop (lines 116-144): `rx` is
what `uart_read_bytes` delivered (empty when `len <= 0`), `fresh` the memory
`malloc` returns (`none` when it fails), `tick` the tick count.  The flag
tells whether the pass ended here with `continue`. -/
def uart1_receive (st : Uart1Buffer) (rx : List Nat) (fresh : Option (List Nat))
    (tick : Nat) : Uart1Buffer × Bool :=
  if rx.length > 0 then
    let opened : Option Uart1Buffer :=
      match st.data_buf with
      | some _ => some st
      | none =>
        match fresh with
        | none => none
        | some mem => some { st with data_buf := some mem, data_len := 0 }
    match opened with
    | none => (st, true)
    | some st1 =>
      if st1.data_len + rx.length > MAX_PDU_LENGTH then
        ({ st1 with data_buf := none, data_len := 0 }, true)
      else
        ({ data_buf := st1.data_buf.map (fun buf => memcpy buf st1.data_len rx),
           data_len := (st1.data_len + rx.length) % 65536,
           last_rx_time := tick }, false)
  else
    (st, false)

/-- The completion part of one pass of the task loop (lines 147-338): when a
buffer is open and the silence exceeds `timeout_ticks`, the frame is handled
by `uart1_frame` and the buffer is released, on every path. -/
def uart1_timeout (regs : List Nat) (st : Uart1Buffer) (tick timeout_ticks : Nat) :
    Uart1Buffer × MbResult :=
  match st.data_buf with
  | none => (st, ⟨none, regs, none, none⟩)
  | some buf =>
    if (tick + 4294967296 - st.last_rx_time) % 4294967296 > timeout_ticks then
      ({ st with data_buf := none, data_len := 0 }, uart1_frame regs buf st.data_len)
    else
      (st, ⟨none, regs, none, none⟩)

/-- One pass of the `while (1)` loop of `uart1_task`. -/
def uart1_iteration (regs : List Nat) (st : Uart1Buffer) (rx : List Nat)
    (fresh : Option (List Nat)) (tick_rx tick_check timeout_ticks : Nat) :
    Uart1Buffer × MbResult :=
  let r := uart1_receive st rx fresh tick_rx
  if r.2 then (r.1, ⟨none, regs, none, none⟩)
  else uart1_timeout regs r.1 tick_check timeout_ticks

/-! ## Packing parsed fields into registers (`lib/parser/parser.c`) -/

/-- The structure `param_block_t`; each span is the list of its bytes. -/
structure param_block_t where
  /-- Span `value`. -/
  value : List Nat
  /-- Span `units`. -/
  units : List Nat
  /-- Span `timestamp`. -/
  timestamp : List Nat
deriving DecidableEq, Repr

/-- The loop `while (bytes_left > 0)` of `write_to_modbus`: the bytes left,
`reg_index` and the registers; returns `reg_index` and the registers. -/
def packValue : List Nat → Nat → List Nat → Nat × List Nat
  | [], reg_index, regs => (reg_index, regs)
  | [b], reg_index, regs => (reg_index + 1, regs.set reg_index ((b <<< 8) % 65536))
  | b0 :: b1 :: rest, reg_index, regs =>
    packValue rest (reg_index + 1) (regs.set reg_index (be16 b0 b1))

/-- The loop `for (i = 0; i < field_count; i++)` of `write_to_modbus`: the
fields left, `reg_index`, `written_fields`, the registers and `start_reg`;
returns `reg_index`, `written_fields` and the registers. -/
def writeFields : List param_block_t → Nat → Nat → List Nat → Nat → Nat × Nat × List Nat
  | [], reg_index, written_fields, regs, _ => (reg_index, written_fields, regs)
  | p :: rest, reg_index, written_fields, regs, start_reg =>
    let required_regs := 1 + (p.value.length + 1) / 2
    if reg_index + required_regs > start_reg + MAX_OUT_BUF_REGS then
      (reg_index, written_fields, regs)
    else
      let regs1 := regs.set reg_index (p.value.length % 65536)
      let r := packValue p.value (reg_index + 1) regs1
      writeFields rest r.1 ((written_fields + 1) % 65536) r.2 start_reg

/-- The function `write_to_modbus(params, field_count, start_reg)`; `params`
is the list of the `field_count` blocks.  Returns the registers. -/
def write_to_modbus (regs : List Nat) (params : List param_block_t) (start_reg : Nat) :
    List Nat :=
  if start_reg + MAX_OUT_BUF_REGS > MAX_REGS then
    regs
  else
    let count_reg := start_reg
    let regs0 := regs.set count_reg 0
    let r := writeFields params (start_reg + 1) 0 regs0 start_reg
    r.2.2.set count_reg r.2.1

/-- First register of the output window. -/
def HLD_OUTPUT : Nat := MAX_CONTROL_REGS

/-! ## SP link task, reception (`lib/uart2_task/uart2_task.c`) -/

/-- The reception part of one pass of `uart2_task` (lines 177-190): when
`uart_read_bytes` delivered `rx_len > 0` bytes, `sp_exe_in` is called with the
local array `result_buf` (given with its content at that moment) and a local
`result_len = 0`.  Nothing is done with the two locals after the call; the
state returned still shows them in `out_buf` and `out_len`. -/
def uart2_inbound (standardTail : List Nat → Nat → SpState → SpState)
    (rx_data : List Nat) (rx_len : Nat) (mallocOk : Bool) (result_buf : List Nat)
    (st : SpState) : SpState :=
  if rx_len > 0 then
    (sp_exe_in standardTail rx_data rx_len mallocOk
      { st with out_buf := result_buf, out_len := 0 }).2
  else
    st

/-! ## Parameter tags (`lib/data_tags/data_tags.c`)

A `float` is only stored and copied here, never computed with: it is carried
as its 32-bit pattern, `0` being `0.0f`.  A name is the list of the character
codes before the terminating `NUL`. -/

/-- Capacity of the tag table. -/
def MAX_TAGS : Nat := 50

/-- The structure `DataTag`; `history` is `none` for `NULL` and otherwise the
allocated buffer. -/
structure DataTag where
  /-- Field `name[32]`, up to its terminator. -/
  name : List Nat
  /-- Field `current_value`. -/
  current_value : Nat
  /-- Field `history`. -/
  history : Option (List Nat)
  /-- Field `history_size`. -/
  history_size : Nat
  /-- Field `history_index`. -/
  history_index : Nat
  /-- Field `last_update`. -/
  last_update : Nat
  /-- Field `flags`. -/
  flags : Nat
deriving DecidableEq, Repr, Inhabited

/-- The static array `tags[MAX_TAGS]` and the counter `tags_count`. -/
structure TagTable where
  /-- The array `tags`. -/
  tags : List DataTag
  /-- The counter `tags_count`. -/
  tags_count : Nat
deriving DecidableEq, Repr

/-- The table at start-up: static storage is zero-initialised. -/
def emptyTagTable : TagTable :=
  ⟨List.replicate MAX_TAGS ⟨[], 0, none, 0, 0, 0, 0⟩, 0⟩

/-- The search loop `for (i = 0; i < tags_count; i++)` with `strcmp`: the
first argument counts the iterations left. -/
def findTag (tags : List DataTag) (name : List Nat) : Nat → Nat → Option Nat
  | 0, _ => none
  | n + 1, i =>
    if (tags.getD i default).name = name then some i
    else findTag tags name n (i + 1)

/-- The function `get_or_create_tag(name, history_size)`; `mallocOk` tells
whether the allocation of the history succeeds.  Returns the index of the
record the returned pointer designates (`none` for `NULL`) and the table. -/
def get_or_create_tag (tbl : TagTable) (name : List Nat) (history_size : Nat)
    (mallocOk : Bool) : Option Nat × TagTable :=
  match findTag tbl.tags name tbl.tags_count 0 with
  | some i => (some i, tbl)
  | none =>
    if tbl.tags_count ≥ MAX_TAGS then
      (none, tbl)
    else
      let new_tag := { tbl.tags.getD tbl.tags_count default with name := name.take 31 }
      if history_size > 0 then
        if !mallocOk then
          (none, { tbl with tags := tbl.tags.set tbl.tags_count new_tag })
        else
          let new_tag := { new_tag with
            history := some (List.replicate history_size 0),
            history_size := history_size,
            history_index := 0, current_value := 0, last_update := 0, flags := 0 }
          (some tbl.tags_count,
            { tags := tbl.tags.set tbl.tags_count new_tag,
              tags_count := (tbl.tags_count + 1) % 256 })
      else
        let new_tag := { new_tag with
          history := none, history_size := 0,
          history_index := 0, current_value := 0, last_update := 0, flags := 0 }
        (some tbl.tags_count,
          { tags := tbl.tags.set tbl.tags_count new_tag,
            tags_count := (tbl.tags_count + 1) % 256 })

/-- The function `update_tag_value(tag, value)` on a record (`tag` is not
`NULL`). -/
def update_tag_value (tag : DataTag) (value : Nat) : DataTag :=
  let tag1 := { tag with current_value := value }
  match tag1.history with
  | none => tag1
  | some h =>
    if tag1.history_size > 0 then
      { tag1 with
        history := some (h.set tag1.history_index value),
        history_index := (tag1.history_index + 1) % tag1.history_size }
    else
      tag1

/-! ## SP link task, transmission (`lib/uart2_task/uart2_task.c`,
`lib/sp_storage/sp_storage.c`) -/

/-- Number of records of a partition. -/
def SP_STORAGE_FILE_COUNT : Nat := 42

/-- The function `request_read_file(file_id, data)`, that is
`read_from_partition(request_partition, file_id, data)`: `none` for the
partition stands for the null pointer, the result `none` for an error code,
and `some` holds the `SP_STORAGE_FILE_SIZE` bytes read into `data`. -/
def request_read_file (request_partition : Option (List Nat)) (file_id : Nat) :
    Option (List Nat) :=
  match request_partition with
  | none => none
  | some bytes =>
    if file_id ≥ SP_STORAGE_FILE_COUNT then none
    else some ((bytes.drop (file_id * SP_STORAGE_FILE_SIZE)).take SP_STORAGE_FILE_SIZE)

/-- What the command block of `uart2_task` hands to the serial port. -/
inductive Uart2Tx where
  /-- The function `uart_write_bytes` is not called. -/
  | nothing
  /-- The call `uart_write_bytes(UART_NUM_2, staffed_buf, final_len)` with
  these `final_len` bytes. -/
  | sent (bytes : List Nat)
  /-- The call `sp_crc16(staffed_buf + 2, staffed_len - 2)` is made with
  `staffed_len < 2`, a length that wraps in `size_t`. -/
  | fault
deriving DecidableEq, Repr

/-- Result of the command block of `uart2_task`. -/
structure Uart2Command where
  /-- The registers and the variables `file_raw` and `commands` afterwards. -/
  st : SpState
  /-- Number of bytes `memcpy(extended_data + 4, file_data + 1, data_len)`
  read, starting at `file_data[1]`; `0` when the call is not reached. -/
  copied : Nat
  /-- Size asked of `malloc` for `staffed_buf`, that is `2 * data_len`; `0`
  when the call is not reached. -/
  staffed_size : Nat
  /-- Number of bytes written from the start of `staffed_buf`, the two bytes
  of the checksum included; `0` when nothing is written. -/
  written : Nat
  /-- What was handed to the serial port. -/
  tx : Uart2Tx
deriving DecidableEq, Repr

/-- The command block of one pass of `uart2_task` (lines 94-174).  `stack` is
the memory that follows the local array `file_data`, `heap` the memory at the
address returned by `malloc(2 * data_len)` (the block of that size and what
follows it); `mallocExtended` and `mallocStaffed` tell whether the two `malloc`
calls return a block.  The local variables of the periodic repeat are left
out. -/
def uart2_command (request_partition : Option (List Nat)) (stack heap : List Nat)
    (mallocExtended mallocStaffed : Bool) (st : SpState) : Uart2Command :=
  let REG_SP_COMM := st.regs.getD 0x0B 0
  if REG_SP_COMM = 0xFFFF then
    ⟨st, 0, 0, 0, Uart2Tx.nothing⟩
  else
    let st1 := { st with file_raw := REG_SP_COMM }
    let file_id := REG_SP_COMM % 256
    match request_read_file request_partition file_id with
    | none => ⟨{ st1 with regs := st1.regs.set 0x0B 0xFFFF }, 0, 0, 0, Uart2Tx.nothing⟩
    | some file_data =>
      let data_len := file_data.getD 0 0
      let regs1 := st1.regs.set 0x0A 0x0000
      let header := [SOH, regs1.getD 0x04 0 % 256, regs1.getD 0x05 0 % 256, ISI]
      let extended_len := (4 + data_len) % 65536
      if mallocExtended = false then
        ⟨{ st1 with regs := regs1.set 0x0B 0xFFFF }, 0, 0, 0, Uart2Tx.nothing⟩
      else
        let extended_data := header ++ ((file_data ++ stack).drop 1).take data_len
        let data_len2 := extended_len % 256
        let commands := ((file_data.getD 1 0) <<< 8) &&& 0xFF00
        if mallocStaffed = false then
          ⟨{ st1 with regs := regs1.set 0x0B 0xFFFF, commands := commands }, data_len,
            2 * data_len2, 0, Uart2Tx.nothing⟩
        else
          let r := staff (extended_data.take data_len2) heap (2 * data_len2)
          if r.1 < 0 then
            ⟨{ st1 with regs := regs1.set 0x0B 0xFFFF, commands := commands }, data_len,
              2 * data_len2, 0, Uart2Tx.nothing⟩
          else if r.1 < 2 then
            ⟨{ st1 with regs := regs1, commands := commands }, data_len,
              2 * data_len2, r.1.toNat, Uart2Tx.fault⟩
          else
            let staffed_len := r.1.toNat
            let crc := sp_crc16 ((r.2.drop 2).take (staffed_len - 2))
            let staffed_buf := (r.2.set staffed_len (crc >>> 8)).set (staffed_len + 1) (crc &&& 0xFF)
            let final_len := (staffed_len + 2) % 65536
            ⟨{ st1 with regs := regs1.set 0x0B 0xFFFF, commands := commands }, data_len,
              2 * data_len2, staffed_len + 2, Uart2Tx.sent (staffed_buf.take final_len)⟩

/-! ## Template-guided extraction (`lib/sp_processing/sp_processing.c`) -/

/-- Outcome of `extract_parameter_value`. -/
inductive Extract (V : Type) where
  /-- Returned `true`, with the value stored in `*out_value`. -/
  | found (value : V)
  /-- Returned `false`. -/
  | notFound
  /-- The comparison `memcmp(data + i, param_name, name_len)` was asked to
  look at bytes at or beyond `data_len`. -/
  | outOfPayload
deriving DecidableEq, Repr

/-- The test `data[pos] == ' ' || data[pos] == '\t'`. -/
def isBlank (c : Nat) : Bool :=
  c == 0x20 || c == 0x09

/-- The test of the number loop: a digit or one of `. , - e E +`. -/
def isNumeric (c : Nat) : Bool :=
  (0x30 ≤ c && c ≤ 0x39) || c == 0x2E || c == 0x2C || c == 0x2D ||
    c == 0x65 || c == 0x45 || c == 0x2B

/-- The loop `while (pos < data_len && (data[pos] == ' ' || data[pos] == '\t')) pos++`;
the first argument counts the iterations left. -/
def skipBlanks (data : List Nat) : Nat → Nat → Nat
  | 0, pos => pos
  | n + 1, pos =>
    if pos < data.length ∧ isBlank (data.getD pos 0) = true then skipBlanks data n (pos + 1)
    else pos

/-- The loop over the characters of the number; the first argument counts the
iterations left. -/
def scanNumber (data : List Nat) : Nat → Nat → Nat
  | 0, pos => pos
  | n + 1, pos =>
    if pos < data.length ∧ isNumeric (data.getD pos 0) = true then scanNumber data n (pos + 1)
    else pos

/-- The body run when the name matches at index `i`: `none` stands for
`continue`.  `strtof` is the C library function, `none` when it converts
nothing (`endptr == num_buf`). -/
def extractAt {V : Type} (strtof : List Nat → Option V) (data : List Nat) (name_len i : Nat) :
    Option V :=
  let pos := skipBlanks data data.length (i + name_len)
  if pos ≥ data.length ∨ data.getD pos 0 ≠ 0x3D then
    none
  else
    let start := skipBlanks data data.length (pos + 1)
    let stop := scanNumber data data.length start
    if stop = start then
      none
    else
      let num_len := if stop - start ≥ 32 then 31 else stop - start
      let num_buf := ((data.drop start).take num_len).map (fun c => if c = 0x2C then 0x2E else c)
      strtof num_buf

/-- The loop `for (i = 0; i < data_len - name_len; i++)`; the first argument
counts the iterations left.  `data` is the list of the `data_len` payload
bytes. -/
def extractLoop {V : Type} (strtof : List Nat → Option V) (data param_name : List Nat) :
    Nat → Nat → Extract V
  | 0, _ => Extract.notFound
  | n + 1, i =>
    if i + param_name.length > data.length then
      Extract.outOfPayload
    else if (data.drop i).take param_name.length = param_name then
      match extractAt strtof data param_name.length i with
      | some v => Extract.found v
      | none => extractLoop strtof data param_name n (i + 1)
    else
      extractLoop strtof data param_name n (i + 1)

/-- The function `extract_parameter_value(data, data_len, param_name, out_value)`.
The bound `data_len - name_len` is computed in the 32-bit `size_t`. -/
def extract_parameter_value {V : Type} (strtof : List Nat → Option V)
    (data param_name : List Nat) : Extract V :=
  extractLoop strtof data param_name
    ((data.length + 4294967296 - param_name.length) % 4294967296) 0

/-! ## Splitting a response into fields (`lib/parser/parser.c`) -/

/-- Separator of the parts of a record. -/
def HT : Nat := 0x09
/-- Separator of records. -/
def FF : Nat := 0x0C
/-- Largest number of fields. -/
def MAX_BLOCKS : Nat := 20

/-- The loop `while (ptr < end && *ptr != HT && *ptr != FF) ptr++` on the
bytes from `ptr` to `end`: the bytes passed and the bytes left. -/
def spanField : List Nat → List Nat × List Nat
  | [] => ([], [])
  | b :: rest =>
    if b ≠ HT ∧ b ≠ FF then ((b :: (spanField rest).1), (spanField rest).2)
    else ([], b :: rest)

/-- The loop `while (ptr < end && *ptr != FF) ptr++`. -/
def spanToFF : List Nat → List Nat × List Nat
  | [] => ([], [])
  | b :: rest =>
    if b ≠ FF then ((b :: (spanToFF rest).1), (spanToFF rest).2)
    else ([], b :: rest)

/-- The function `process_param_block(start, end, block)` on the bytes from
`start` to `end`. -/
def process_param_block (block : List Nat) : param_block_t :=
  match block with
  | [] => ⟨[], [], []⟩
  | b :: rest =>
    let v := spanField (if b = HT then rest else b :: rest)
    match v.2 with
    | [] => ⟨v.1, [], []⟩
    | c :: r1 =>
      if c = HT then
        let u := spanField r1
        match u.2 with
        | [] => ⟨v.1, u.1, []⟩
        | d :: r2 =>
          if d = HT then ⟨v.1, u.1, (spanToFF r2).1⟩
          else ⟨v.1, u.1, []⟩
      else ⟨v.1, [], []⟩

/-- The splitting loop of `handle_read_parameter` and the handling of the last
block: the bytes from `ptr` to `payload_end`, the bytes from `block_start` to
`ptr`, and the fields found so far. -/
def splitLoop : List Nat → List Nat → List param_block_t → List param_block_t
  | [], cur, params =>
    if cur ≠ [] ∧ params.length < MAX_BLOCKS then params ++ [process_param_block cur]
    else params
  | b :: rest, cur, params =>
    if params.length < MAX_BLOCKS then
      if b = FF then
        if cur ≠ [] then splitLoop rest [] (params ++ [process_param_block cur])
        else splitLoop rest [] params
      else
        splitLoop rest (cur ++ [b]) params
    else
      params

/-- The function `handle_read_parameter(fnc, data, len)` with the positions
left by `deStaff` (`0 <= stx_position < etx_position` after its success) and
the register bank.  Returns the fields and the registers. -/
def handle_read_parameter (regs : List Nat) (fnc : Nat) (data : List Nat)
    (stx_position etx_position : Nat) : List param_block_t × List Nat :=
  if fnc ≠ 0x03 then
    ([], regs)
  else
    let payload_len := etx_position - (stx_position + 1)
    let payload := (data.drop (stx_position + 1)).take payload_len
    if payload_len = 0 then
      ([], regs)
    else
      let params := splitLoop payload [] []
      (params, write_to_modbus regs params HLD_OUTPUT)

/-! ## Specification-level functions

The functions below are not translations of code: they state, on lists, what
the specification says the codec computes, and the theorems compare the code
with them. -/

/-- Stuffed form of a byte sequence: every reserved marker is preceded by the
escape byte, every other byte is kept. -/
def stuff : List Nat → List Nat
  | [] => []
  | b :: rest => if isMarker b then DLE :: b :: stuff rest else b :: stuff rest

/-- Number of reserved marker bytes in a sequence. -/
def markerCount (input : List Nat) : Nat :=
  input.countP isMarker

/-- The byte `b`, followed by `rest`, is an escape: `b` is the escape byte and
the next byte exists and is a reserved marker. -/
def escapes (b : Nat) (rest : List Nat) : Bool :=
  b == DLE && (match rest with
    | m :: _ => isMarker m
    | [] => false)

/-- Compacted form of a buffer: every escape byte is dropped, all else kept. -/
def destuffed : List Nat → List Nat
  | [] => []
  | b :: rest => if escapes b rest then destuffed rest else b :: destuffed rest

/-- Positions, in the compacted output counted from `w`, of the escaped
occurrences of the marker `m` in a buffer, in the order they are seen. -/
def escPositions (m : Nat) : List Nat → Nat → List Nat
  | [], _ => []
  | b :: rest, w =>
    if escapes b rest then
      if rest.head? = some m then w :: escPositions m rest w else escPositions m rest w
    else escPositions m rest (w + 1)

/-- Position variable after a scan: the compacted position of the last escaped
`m` of the buffer, or the previous value `p` when there is none. -/
def posAfter (m : Nat) (xs : List Nat) (w : Nat) (p : Int) : Int :=
  match (escPositions m xs w).getLast? with
  | some k => (k : Int)
  | none => p

/-- Registers holding the bytes of a value two per register, big-endian; a
trailing odd byte goes to the high byte and the low byte is zero. -/
def packBytes : List Nat → List Nat
  | [] => []
  | [b] => [b * 256]
  | b0 :: b1 :: rest => (b0 * 256 + b1) :: packBytes rest

/-- Register image of a list of fields: for each field, in order, one register
with the length of its value and then the registers of `packBytes`. -/
def packedFields : List param_block_t → List Nat
  | [] => []
  | p :: rest => (p.value.length :: packBytes p.value) ++ packedFields rest

/-- Number of leading fields that fit, one after the other, in `room`
registers; a field needs one register and one more per two bytes. -/
def fitCount : List param_block_t → Nat → Nat
  | [], _ => 0
  | p :: rest, room =>
    if 1 + (p.value.length + 1) / 2 > room then 0
    else 1 + fitCount rest (room - (1 + (p.value.length + 1) / 2))

/-- Every byte of every value is below 256. -/
def byteFields (params : List param_block_t) : Prop :=
  ∀ p ∈ params, ∀ b ∈ p.value, b < 256

/-- Fields of one record as the specification words them: the value is the
record (after an optional leading `HT`) up to the first `HT`, the units are
the span up to the next `HT`, the timestamp is the remainder. -/
def recordFields (record : List Nat) : param_block_t :=
  let body := if record.head? = some HT then record.tail else record
  let afterValue := (body.dropWhile (fun b => b != HT)).tail
  ⟨body.takeWhile (fun b => b != HT),
    afterValue.takeWhile (fun b => b != HT),
    (afterValue.dropWhile (fun b => b != HT)).tail⟩

/-- Fields of a payload as the specification words them: one per non-empty
record delimited by `FF`, in order, at most 20. -/
def payloadFields (payload : List Nat) : List param_block_t :=
  (((payload.splitOn FF).filter (fun r => r ≠ [])).take 20).map recordFields

/-- Frame for a request as the specification words it: the stuffed form of
the header `SOH, DAD, SAD, ISI` and the payload, followed by the SP CRC16,
high byte first, of the stuffed bytes after the leading `DLE SOH`. -/
def commandFrame (dad sad : Nat) (payload : List Nat) : List Nat :=
  stuff ([SOH, dad, sad, ISI] ++ payload) ++
    [sp_crc16 ((stuff ([SOH, dad, sad, ISI] ++ payload)).drop 2) >>> 8,
     sp_crc16 ((stuff ([SOH, dad, sad, ISI] ++ payload)).drop 2) &&& 0xFF]

end MbSpv33


namespace MbSpv33

/-! ## Lemmas on buffers -/

theorem set_length_append (pre : List Nat) (a x : Nat) (out : List Nat) :
    (pre ++ a :: out).set pre.length x = pre ++ x :: out := by
  induction pre with
  | nil => rfl
  | cons p pre ih => simp [List.set, ih]

theorem getD_length_append (pre : List Nat) (a d : Nat) (out : List Nat) :
    (pre ++ a :: out).getD pre.length d = a := by
  induction pre with
  | nil => rfl
  | cons p pre ih => simpa using ih

/-! ## Stuffing -/

theorem stuff_length (input : List Nat) :
    (stuff input).length = input.length + markerCount input := by
  induction input with
  | nil => rfl
  | cons b rest ih =>
    by_cases hb : isMarker b = true
    · simp [stuff, markerCount, hb, List.countP_cons] at ih ⊢
      omega
    · simp [stuff, markerCount, hb, List.countP_cons] at ih ⊢
      omega

theorem stuff_append (xs ys : List Nat) : stuff (xs ++ ys) = stuff xs ++ stuff ys := by
  induction xs with
  | nil => rfl
  | cons b rest ih =>
    by_cases hb : isMarker b = true <;> simp [stuff, hb, ih]

theorem isMarker_cases (b : Nat) (hb : isMarker b = true) :
    b = SOH ∨ b = ISI ∨ b = STX ∨ b = ETX := by
  simp only [isMarker, Bool.or_eq_true, beq_iff_eq] at hb
  tauto

theorem staffLoop_marker (b : Nat) (hb : isMarker b = true) (rest : List Nat) (j : Nat)
    (output : List Nat) (cap : Nat) (hfit : j + 2 ≤ cap) :
    staffLoop (b :: rest) j output cap =
      staffLoop rest (j + 2) ((output.set j DLE).set (j + 1) b) cap := by
  have hnot : ¬ j + 2 > cap := by omega
  rcases isMarker_cases b hb with h | h | h | h <;> subst h <;>
    simp only [staffLoop, hb, if_true, if_neg hnot] <;> simp [SOH, ISI, STX, ETX]

theorem staffLoop_plain (b : Nat) (hb : isMarker b = false) (rest : List Nat) (j : Nat)
    (output : List Nat) (cap : Nat) (hfit : j + 1 ≤ cap) :
    staffLoop (b :: rest) j output cap = staffLoop rest (j + 1) (output.set j b) cap := by
  have hnot : ¬ j + 1 > cap := by omega
  have h := hb
  simp only [isMarker, Bool.or_eq_false_iff, beq_eq_false_iff_ne, ne_eq] at h
  obtain ⟨⟨⟨h1, h2⟩, h3⟩, h4⟩ := h
  simp [staffLoop, hb, hnot, h1, h2, h3, h4]

/-- The loop of `staff`, started at index `pre.length` on a buffer whose first
bytes are `pre`, appends the stuffed input when it fits. -/
theorem staffLoop_fits (input : List Nat) :
    ∀ (pre out : List Nat) (cap : Nat),
      pre.length + (stuff input).length ≤ cap →
      (stuff input).length ≤ out.length →
      staffLoop input pre.length (pre ++ out) cap =
        (((pre.length + (stuff input).length : Nat) : Int),
          pre ++ stuff input ++ out.drop (stuff input).length) := by
  induction input with
  | nil => intro pre out cap _ _; simp [staffLoop, stuff]
  | cons b rest ih =>
    intro pre out cap hcap hout
    by_cases hb : isMarker b = true
    · simp only [stuff, hb, if_true, List.length_cons] at hcap hout ⊢
      obtain ⟨o1, _ | ⟨o2, out2⟩, rfl⟩ : ∃ o1 out1, out = o1 :: out1 := by
        cases out with
        | nil => simp at hout
        | cons o1 out1 => exact ⟨o1, out1, rfl⟩
      · simp at hout
      rw [staffLoop_marker b hb rest _ _ _ (by omega), set_length_append]
      have e1 : (pre ++ DLE :: o2 :: out2) = (pre ++ [DLE]) ++ o2 :: out2 := by simp
      have e2 : pre.length + 1 = (pre ++ [DLE]).length := by simp
      rw [e1, e2, set_length_append]
      have e3 : (pre ++ [DLE] ++ b :: out2) = (pre ++ [DLE, b]) ++ out2 := by simp
      have e4 : pre.length + 2 = (pre ++ [DLE, b]).length := by simp
      rw [e3, e4, ih (pre ++ [DLE, b]) out2 cap (by simp; omega) (by simp at hout; omega)]
      simp
      omega
    · have hb' : isMarker b = false := by simpa using hb
      simp only [stuff, hb', Bool.false_eq_true, if_false, List.length_cons] at hcap hout ⊢
      obtain ⟨o1, out1, rfl⟩ : ∃ o1 out1, out = o1 :: out1 := by
        cases out with
        | nil => simp at hout
        | cons o1 out1 => exact ⟨o1, out1, rfl⟩
      rw [staffLoop_plain b hb' rest _ _ _ (by omega), set_length_append]
      have e3 : (pre ++ b :: out1) = (pre ++ [b]) ++ out1 := by simp
      have e4 : pre.length + 1 = (pre ++ [b]).length := by simp
      rw [e3, e4, ih (pre ++ [b]) out1 cap (by simp; omega) (by simp at hout; omega)]
      simp
      omega

/-- The loop of `staff` on an input that does not fit: it stops at the first
byte whose stuffed form would pass the capacity, returns `0`, and has by then
written the stuffed form of the bytes before it. -/
theorem staffLoop_overflow (input : List Nat) :
    ∀ (pre out : List Nat) (cap : Nat),
      pre.length ≤ cap → cap ≤ pre.length + out.length →
      cap < pre.length + (stuff input).length →
      ∃ p b rest, input = p ++ b :: rest ∧
        pre.length + (stuff p).length ≤ cap ∧
        cap < pre.length + (stuff (p ++ [b])).length ∧
        staffLoop input pre.length (pre ++ out) cap =
          (0, pre ++ stuff p ++ out.drop (stuff p).length) := by
  induction input with
  | nil => intro pre out cap h1 _ h3; simp [stuff] at h3; omega
  | cons b rest ih =>
    intro pre out cap hpre hbuf hover
    by_cases hb : isMarker b = true
    · by_cases hreq : pre.length + 2 > cap
      · refine ⟨[], b, rest, rfl, by simpa [stuff] using hpre, by simpa [stuff, hb] using hreq, ?_⟩
        simp [staffLoop, hb, hreq, stuff]
      · have hlen : 2 ≤ out.length := by omega
        obtain ⟨o1, o2, out2, rfl⟩ : ∃ o1 o2 out2, out = o1 :: o2 :: out2 := by
          match out, hlen with
          | o1 :: o2 :: out2, _ => exact ⟨o1, o2, out2, rfl⟩
        rw [staffLoop_marker b hb rest _ _ _ (by omega), set_length_append]
        have e1 : (pre ++ DLE :: o2 :: out2) = (pre ++ [DLE]) ++ o2 :: out2 := by simp
        have e2 : pre.length + 1 = (pre ++ [DLE]).length := by simp
        rw [e1, e2, set_length_append]
        have e3 : (pre ++ [DLE] ++ b :: out2) = (pre ++ [DLE, b]) ++ out2 := by simp
        have e4 : pre.length + 2 = (pre ++ [DLE, b]).length := by simp
        rw [e3, e4]
        simp only [stuff, hb, if_true, List.length_cons] at hover
        simp only [List.length_cons] at hbuf
        obtain ⟨p, c, rest2, hin, hle, hlt, hrun⟩ :=
          ih (pre ++ [DLE, b]) out2 cap (by simp; omega) (by simp; omega) (by simp; omega)
        refine ⟨b :: p, c, rest2, by simp [hin], ?_, ?_, ?_⟩
        · simp [stuff, hb] at hle ⊢; omega
        · simp [stuff, hb] at hlt ⊢; omega
        · rw [hrun]; simp [stuff, hb]
    · have hb' : isMarker b = false := by simpa using hb
      by_cases hreq : pre.length + 1 > cap
      · refine ⟨[], b, rest, rfl, by simpa [stuff] using hpre, by simpa [stuff, hb'] using hreq, ?_⟩
        simp [staffLoop, hb', hreq, stuff]
      · have hlen : 1 ≤ out.length := by omega
        obtain ⟨o1, out1, rfl⟩ : ∃ o1 out1, out = o1 :: out1 := by
          match out, hlen with
          | o1 :: out1, _ => exact ⟨o1, out1, rfl⟩
        rw [staffLoop_plain b hb' rest _ _ _ (by omega), set_length_append]
        have e3 : (pre ++ b :: out1) = (pre ++ [b]) ++ out1 := by simp
        have e4 : pre.length + 1 = (pre ++ [b]).length := by simp
        rw [e3, e4]
        simp only [stuff, hb', Bool.false_eq_true, if_false, List.length_cons] at hover
        simp only [List.length_cons] at hbuf
        obtain ⟨p, c, rest2, hin, hle, hlt, hrun⟩ :=
          ih (pre ++ [b]) out1 cap (by simp; omega) (by simp; omega) (by simp; omega)
        refine ⟨b :: p, c, rest2, by simp [hin], ?_, ?_, ?_⟩
        · simp [stuff, hb'] at hle ⊢; omega
        · simp [stuff, hb'] at hlt ⊢; omega
        · rw [hrun]; simp [stuff, hb']

/-- The function `staff` on an input whose stuffed form fits. -/
theorem staff_fits (input output : List Nat) (output_max_len : Nat)
    (hfit : (stuff input).length ≤ output_max_len)
    (hbuf : output_max_len ≤ output.length) :
    staff input output output_max_len =
      ((((stuff input).length : Nat) : Int), stuff input ++ output.drop (stuff input).length) := by
  have h := staffLoop_fits input [] output output_max_len (by simpa using hfit) (by omega)
  simpa [staff] using h

/-- C2: whenever the stuffed form fits in `output_max_len`, `staff` writes, in
order, `DLE` and the byte for every reserved marker and the byte itself
otherwise (the list `stuff input`), leaves the rest of the buffer alone, and
returns the output length, which is the input length plus the number of marker
bytes in the input. -/
theorem staff_emits_stuffed (input output : List Nat) (output_max_len : Nat)
    (hfit : (stuff input).length ≤ output_max_len)
    (hbuf : output_max_len ≤ output.length) :
    staff input output output_max_len =
        (((input.length + markerCount input : Nat) : Int),
          stuff input ++ output.drop (input.length + markerCount input)) ∧
      (stuff input).length = input.length + markerCount input := by
  have h := staff_fits input output output_max_len hfit hbuf
  rw [stuff_length] at h
  exact ⟨h, stuff_length input⟩

/-- C2, at the input `41 02 10` with a six-byte buffer. -/
theorem staff_emits_stuffed_witness :
    staff [0x41, 0x02, 0x10] [0, 0, 0, 0, 0, 0] 6 = ((4 : Int), [0x41, 0x10, 0x02, 0x10, 0, 0]) :=
  (staff_emits_stuffed [0x41, 0x02, 0x10] [0, 0, 0, 0, 0, 0] 6 (by decide) (by decide)).1

/-- C3 fails as stated: the two bytes `41 42` do not fit in a one-byte buffer,
`staff` returns `0`, and the buffer, `00` before the call, holds `41`. -/
theorem staff_overflow_leaves_bytes :
    1 < (stuff [0x41, 0x42]).length ∧
      staff [0x41, 0x42] [0x00] 1 = (0, [0x41]) ∧
      (staff [0x41, 0x42] [0x00] 1).2 ≠ [0x00] := by
  decide

/-- C3, amended: when the stuffed form does not fit in `output_max_len`,
`staff` returns `0` and the buffer holds the stuffed form of the longest prefix
`p` of the input that fits, followed by its previous contents. -/
theorem staff_overflow_writes_fitting (input output : List Nat) (output_max_len : Nat)
    (hbuf : output_max_len ≤ output.length)
    (hover : output_max_len < (stuff input).length) :
    ∃ p b rest, input = p ++ b :: rest ∧
      (stuff p).length ≤ output_max_len ∧
      output_max_len < (stuff (p ++ [b])).length ∧
      staff input output output_max_len =
        (0, stuff p ++ output.drop (stuff p).length) := by
  have h := staffLoop_overflow input [] output output_max_len (by simp) (by simpa using hbuf)
    (by simpa using hover)
  simpa [staff] using h

/-- C3 amended, at the input `41 42` with a one-byte buffer. -/
theorem staff_overflow_writes_fitting_witness :
    ∃ p b rest, [0x41, 0x42] = p ++ b :: rest ∧
      (stuff p).length ≤ 1 ∧ 1 < (stuff (p ++ [b])).length ∧
      staff [0x41, 0x42] [0x00] 1 = (0, stuff p ++ [0x00].drop (stuff p).length) :=
  staff_overflow_writes_fitting [0x41, 0x42] [0x00] 1 (by decide) (by decide)

/-! ## Destuffing -/

theorem should_remove_eq (m : Nat) :
    (m == SOH || m == STX || m == ETX || m == ISI) = isMarker m := by
  simp only [isMarker]
  cases (m == SOH) <;> cases (m == STX) <;> cases (m == ETX) <;> cases (m == ISI) <;> rfl

theorem set_write (pre mid : List Nat) (b : Nat) (R : List Nat) :
    (pre ++ mid ++ b :: R).set pre.length b = (pre ++ [b]) ++ (mid ++ [b]).tail ++ R := by
  cases mid with
  | nil => simp
  | cons g mid0 =>
    simp

theorem getD_read (pre mid : List Nat) (b d : Nat) (R : List Nat) :
    (pre ++ mid ++ b :: R).getD (pre.length + mid.length) d = b := by
  have h := getD_length_append (pre ++ mid) b d R
  rwa [List.length_append] at h

theorem posAfter_nil (m w : Nat) (p : Int) : posAfter m [] w p = p := rfl

theorem posAfter_cons (m b : Nat) (rest : List Nat) (w : Nat) (p : Int) :
    posAfter m (b :: rest) w p =
      if escapes b rest then
        posAfter m rest w (if rest.head? = some m then (w : Int) else p)
      else posAfter m rest (w + 1) p := by
  unfold posAfter
  by_cases h : escapes b rest = true
  · by_cases hm : rest.head? = some m
    · simp only [escPositions, h, hm, if_true, List.getLast?_cons]
      cases (escPositions m rest w).getLast? <;> rfl
    · simp only [escPositions, h, hm, if_true, if_false]
  · simp only [escPositions, h, Bool.false_eq_true, if_false]

theorem posAfter_none (m : Nat) (xs : List Nat) (w : Nat) (p : Int)
    (h : (escPositions m xs w).getLast? = none) : posAfter m xs w p = p := by
  simp [posAfter, h]

theorem posAfter_some (m : Nat) (xs : List Nat) (w : Nat) (p : Int) (k : Nat)
    (h : (escPositions m xs w).getLast? = some k) : posAfter m xs w p = (k : Int) := by
  simp [posAfter, h]

/-- One iteration of the loop of `deStaff`, with the two nested tests merged. -/
theorem deStaffLoop_step (fuel : Nat) (input : List Nat) (len r w : Nat) (s e : Int)
    (hr : r < len) :
    deStaffLoop (fuel + 1) input len r w s e =
      if input.getD r 0 = DLE ∧ r + 1 < len ∧ isMarker (input.getD (r + 1) 0) = true then
        deStaffLoop fuel input len (r + 1) w
          (if input.getD (r + 1) 0 = STX then (w : Int) else s)
          (if input.getD (r + 1) 0 = ETX then (w : Int) else e)
      else
        deStaffLoop fuel (input.set w (input.getD r 0)) len (r + 1) (w + 1) s e := by
  rw [deStaffLoop]
  simp only [hr, if_true, should_remove_eq]
  by_cases h1 : input.getD r 0 = DLE ∧ r + 1 < len
  · by_cases h2 : isMarker (input.getD (r + 1) 0) = true
    · have h3 : input.getD r 0 = DLE ∧ r + 1 < len ∧ isMarker (input.getD (r + 1) 0) = true :=
        ⟨h1.1, h1.2, h2⟩
      rw [if_pos h1, if_pos h2, if_pos h3]
    · have h3 : ¬ (input.getD r 0 = DLE ∧ r + 1 < len ∧ isMarker (input.getD (r + 1) 0) = true) :=
        fun h => h2 h.2.2
      rw [if_pos h1, if_neg h2, if_neg h3]
  · have h3 : ¬ (input.getD r 0 = DLE ∧ r + 1 < len ∧ isMarker (input.getD (r + 1) 0) = true) :=
      fun h => h1 ⟨h.1, h.2.1⟩
    rw [if_neg h1, if_neg h3]

/-- The in-place loop of `deStaff` computes the compacted form.  The buffer is
`pre ++ mid ++ xs ++ tail`: `pre` is what has been written, `mid` the gap left
by the dropped escape bytes, `xs` what is still to be read. -/
theorem deStaffLoop_scan (xs : List Nat) :
    ∀ (pre mid tail : List Nat) (s e : Int),
      ∃ junk, deStaffLoop xs.length (pre ++ mid ++ xs ++ tail)
          (pre.length + mid.length + xs.length) (pre.length + mid.length) pre.length s e =
        (pre ++ destuffed xs ++ junk ++ tail, pre.length + (destuffed xs).length,
          posAfter STX xs pre.length s, posAfter ETX xs pre.length e) := by
  induction xs with
  | nil =>
    intro pre mid tail s e
    exact ⟨mid, by simp [deStaffLoop, destuffed, posAfter_nil]⟩
  | cons b rest ih =>
    intro pre mid tail s e
    have hr : pre.length + mid.length < pre.length + mid.length + (b :: rest).length := by
      simp
    have hshape : pre ++ mid ++ (b :: rest) ++ tail = pre ++ mid ++ b :: (rest ++ tail) := by
      simp
    rw [List.length_cons, deStaffLoop_step _ _ _ _ _ _ _ (by simp), hshape,
      getD_read]
    by_cases hesc : escapes b rest = true
    · -- an escape: the byte is dropped
      obtain ⟨m, rest2, rfl⟩ : ∃ m rest2, rest = m :: rest2 := by
        cases rest with
        | nil => simp [escapes] at hesc
        | cons m rest2 => exact ⟨m, rest2, rfl⟩
      have hb : b = DLE := by
        simp only [escapes, Bool.and_eq_true, beq_iff_eq] at hesc
        exact hesc.1
      have hm : isMarker m = true := by
        simp only [escapes, Bool.and_eq_true, beq_iff_eq] at hesc
        exact hesc.2
      have hnext : (pre ++ mid ++ b :: (m :: rest2 ++ tail)).getD
          (pre.length + mid.length + 1) 0 = m := by
        have h := getD_read pre (mid ++ [b]) m 0 (rest2 ++ tail)
        simpa [Nat.add_assoc] using h
      rw [hnext]
      have hcond : b = DLE ∧ pre.length + mid.length + 1 <
          pre.length + mid.length + ((m :: rest2).length + 1) ∧ isMarker m = true :=
        ⟨hb, by simp, hm⟩
      rw [if_pos hcond]
      obtain ⟨junk, hj⟩ := ih pre (mid ++ [b]) tail
        (if m = STX then (pre.length : Int) else s) (if m = ETX then (pre.length : Int) else e)
      refine ⟨junk, ?_⟩
      have e1 : pre ++ (mid ++ [b]) ++ m :: rest2 ++ tail =
          pre ++ mid ++ b :: (m :: rest2 ++ tail) := by simp
      have e2 : pre.length + (mid ++ [b]).length = pre.length + mid.length + 1 := by
        simp [Nat.add_assoc]
      have e3 : pre.length + mid.length + 1 + (m :: rest2).length =
          pre.length + mid.length + ((m :: rest2).length + 1) := by
        omega
      rw [e1, e2, e3] at hj
      rw [posAfter_cons STX b, posAfter_cons ETX b, hj]
      simp [destuffed, hesc]
    · -- an ordinary byte: it is copied to `write_idx`
      have hcond : ¬ (b = DLE ∧ pre.length + mid.length + 1 <
          pre.length + mid.length + (rest.length + 1) ∧
          isMarker ((pre ++ mid ++ b :: (rest ++ tail)).getD
            (pre.length + mid.length + 1) 0) = true) := by
        rintro ⟨hb, hlt, hm⟩
        apply hesc
        cases rest with
        | nil => simp at hlt
        | cons m rest2 =>
          have h := getD_read pre (mid ++ [b]) m 0 (rest2 ++ tail)
          have hnext : (pre ++ mid ++ b :: (m :: rest2 ++ tail)).getD
              (pre.length + mid.length + 1) 0 = m := by
            simpa [Nat.add_assoc] using h
          rw [hnext] at hm
          simp [escapes, hb, hm]
      rw [if_neg hcond, set_write]
      obtain ⟨junk, hj⟩ := ih (pre ++ [b]) ((mid ++ [b]).tail) tail s e
      refine ⟨junk, ?_⟩
      have hlen : ((mid ++ [b]).tail).length = mid.length := by simp
      have e1 : pre ++ [b] ++ (mid ++ [b]).tail ++ rest ++ tail =
          pre ++ [b] ++ (mid ++ [b]).tail ++ (rest ++ tail) := by simp
      have e2 : (pre ++ [b]).length + ((mid ++ [b]).tail).length =
          pre.length + mid.length + 1 := by
        rw [hlen]; simp; omega
      have e3 : (pre ++ [b]).length = pre.length + 1 := by simp
      rw [e1, e2, e3] at hj
      have e4 : pre.length + mid.length + 1 + rest.length =
          pre.length + mid.length + (rest.length + 1) := by omega
      rw [e4] at hj
      rw [posAfter_cons STX b, posAfter_cons ETX b, hj]
      have hesc' : escapes b rest = false := by simpa using hesc
      simp [destuffed, hesc']
      omega

/-- The function `deStaff` on a buffer `xs ++ tail` of which the first
`xs.length` bytes, between 4 and 480, are processed. -/
theorem deStaff_append (xs tail : List Nat) (s e : Int)
    (hmin : BUF_MIN_SIZE ≤ xs.length) (hmax : xs.length ≤ UART_BUF_SIZE * 2) :
    ∃ junk, deStaff (xs ++ tail) xs.length s e =
      ⟨if posAfter STX xs 0 s = -1 ∨ posAfter ETX xs 0 e = -1 ∨
            posAfter STX xs 0 s ≥ posAfter ETX xs 0 e then -1
          else ((destuffed xs).length : Int),
        destuffed xs ++ junk ++ tail, posAfter STX xs 0 s, posAfter ETX xs 0 e⟩ := by
  obtain ⟨junk, hj⟩ := deStaffLoop_scan xs [] [] tail s e
  simp only [List.nil_append, List.length_nil, Nat.zero_add, Nat.add_zero] at hj
  refine ⟨junk, ?_⟩
  have h0 : xs.length ≠ 0 := by simp only [BUF_MIN_SIZE] at hmin; omega
  have h1 : ¬ (xs.length < BUF_MIN_SIZE ∨ xs.length > UART_BUF_SIZE * 2) := by omega
  simp only [deStaff, if_neg h0, if_neg h1, hj]
  split <;> rfl

/-- The function `deStaff` on the first `len` bytes of a buffer. -/
theorem deStaff_eq (input : List Nat) (len : Nat) (s e : Int) (hlen : len ≤ input.length)
    (hmin : BUF_MIN_SIZE ≤ len) (hmax : len ≤ UART_BUF_SIZE * 2) :
    ∃ junk, deStaff input len s e =
      ⟨if posAfter STX (input.take len) 0 s = -1 ∨ posAfter ETX (input.take len) 0 e = -1 ∨
            posAfter STX (input.take len) 0 s ≥ posAfter ETX (input.take len) 0 e then -1
          else ((destuffed (input.take len)).length : Int),
        destuffed (input.take len) ++ junk ++ input.drop len,
        posAfter STX (input.take len) 0 s, posAfter ETX (input.take len) 0 e⟩ := by
  have hl : (input.take len).length = len := by simp [hlen]
  have h := deStaff_append (input.take len) (input.drop len) s e (by omega) (by omega)
  rwa [List.take_append_drop, hl] at h

/-- C4 fails as stated: a buffer with two escaped `STX` and one escaped `ETX`
is accepted from fresh positions, `deStaff` returning the compacted length 3,
and a one-byte buffer without any marker returns `0`, not `-1`. -/
theorem deStaff_accepts_two_stx :
    (escPositions STX [DLE, STX, DLE, STX, DLE, ETX] 0).length = 2 ∧
      (deStaff [DLE, STX, DLE, STX, DLE, ETX] 6 (-1) (-1)).ret = 3 ∧
      (deStaff [0x41] 1 (-1) (-1)).ret = 0 := by
  decide

/-- C4, amended: started with both positions at `-1`, `deStaff` returns `0` on
a buffer shorter than 4 or longer than 480 bytes; on any other buffer it
returns `-1` exactly when the buffer has no escaped `STX`, or no escaped
`ETX`, or its last escaped `STX` is not strictly before its last escaped
`ETX` in the compacted output, and otherwise returns the compacted length. -/
theorem deStaff_accepts_iff (input : List Nat) (len : Nat) (hlen : len ≤ input.length) :
    ((len < BUF_MIN_SIZE ∨ UART_BUF_SIZE * 2 < len) → (deStaff input len (-1) (-1)).ret = 0) ∧
    (BUF_MIN_SIZE ≤ len → len ≤ UART_BUF_SIZE * 2 →
      ((deStaff input len (-1) (-1)).ret ≠ -1 ↔
        ∃ i j, (escPositions STX (input.take len) 0).getLast? = some i ∧
          (escPositions ETX (input.take len) 0).getLast? = some j ∧ i < j) ∧
      ((deStaff input len (-1) (-1)).ret ≠ -1 →
        (deStaff input len (-1) (-1)).ret = ((destuffed (input.take len)).length : Int))) := by
  constructor
  · intro h
    by_cases h0 : len = 0
    · simp [deStaff, h0]
    · have h1 : len < BUF_MIN_SIZE ∨ len > UART_BUF_SIZE * 2 := h
      simp [deStaff, h0, h1]
  · intro hmin hmax
    obtain ⟨junk, hj⟩ := deStaff_eq input len (-1) (-1) hlen hmin hmax
    rw [hj]
    cases hs : (escPositions STX (input.take len) 0).getLast? with
    | none => simp [posAfter_none STX _ 0 (-1) hs]
    | some i =>
      cases he : (escPositions ETX (input.take len) 0).getLast? with
      | none => simp [posAfter_none ETX _ 0 (-1) he]
      | some j =>
        rw [posAfter_some STX _ 0 (-1) i hs, posAfter_some ETX _ 0 (-1) j he]
        by_cases hij : i < j
        · have hok : ¬ ((i : Int) = -1 ∨ (j : Int) = -1 ∨ (i : Int) ≥ (j : Int)) := by omega
          simp [hok, hij]
        · have hbad : (i : Int) = -1 ∨ (j : Int) = -1 ∨ (i : Int) ≥ (j : Int) := by omega
          simp [hbad, hij]

/-- C4 amended, at the six-byte buffer `10 02 10 02 10 03`. -/
theorem deStaff_accepts_iff_witness :
    ((6 < BUF_MIN_SIZE ∨ UART_BUF_SIZE * 2 < 6) →
        (deStaff [DLE, STX, DLE, STX, DLE, ETX] 6 (-1) (-1)).ret = 0) ∧
    (BUF_MIN_SIZE ≤ 6 → 6 ≤ UART_BUF_SIZE * 2 →
      ((deStaff [DLE, STX, DLE, STX, DLE, ETX] 6 (-1) (-1)).ret ≠ -1 ↔
        ∃ i j, (escPositions STX ([DLE, STX, DLE, STX, DLE, ETX].take 6) 0).getLast? = some i ∧
          (escPositions ETX ([DLE, STX, DLE, STX, DLE, ETX].take 6) 0).getLast? = some j ∧
          i < j) ∧
      ((deStaff [DLE, STX, DLE, STX, DLE, ETX] 6 (-1) (-1)).ret ≠ -1 →
        (deStaff [DLE, STX, DLE, STX, DLE, ETX] 6 (-1) (-1)).ret =
          ((destuffed ([DLE, STX, DLE, STX, DLE, ETX].take 6)).length : Int))) :=
  deStaff_accepts_iff [DLE, STX, DLE, STX, DLE, ETX] 6 (by decide)

/-- C5 fails on the code: the positions left by an earlier call decide the
next one.  A first call on `10 02 41 10 03` succeeds and leaves the positions
`0` and `2`; the buffer `41 41 41 41`, which has no marker, is then accepted
with result 4 and the stale positions, while the same buffer is rejected with
`-1` when both positions are `-1`. -/
theorem deStaff_depends_on_prior_positions :
    deStaff [DLE, STX, 0x41, DLE, ETX] 5 (-1) (-1) = ⟨3, [STX, 0x41, ETX, DLE, ETX], 0, 2⟩ ∧
      deStaff [0x41, 0x41, 0x41, 0x41] 4 0 2 = ⟨4, [0x41, 0x41, 0x41, 0x41], 0, 2⟩ ∧
      deStaff [0x41, 0x41, 0x41, 0x41] 4 (-1) (-1) =
        ⟨-1, [0x41, 0x41, 0x41, 0x41], -1, -1⟩ := by
  decide

/-! ## Checksums -/

theorem xor_mod_65536 (a b : Nat) : (a ^^^ b) % 65536 = (a % 65536) ^^^ (b % 65536) := by
  have h : (65536 : Nat) = 2 ^ 16 := by norm_num
  rw [h]
  apply Nat.eq_of_testBit_eq
  intro i
  simp only [Nat.testBit_mod_two_pow, Nat.testBit_xor]
  by_cases hi : i < 16 <;> simp [hi]

theorem and_bit15_mod (c : Nat) : (c % 65536) &&& 0x8000 = c &&& 0x8000 := by
  have h : (65536 : Nat) = 2 ^ 16 := by norm_num
  have h2 : (0x8000 : Nat) = 2 ^ 15 := by norm_num
  rw [h, h2]
  apply Nat.eq_of_testBit_eq
  intro i
  simp only [Nat.testBit_and, Nat.testBit_mod_two_pow, Nat.testBit_two_pow]
  by_cases hi : 15 = i
  · subst hi; simp
  · simp [hi]

/-- The low 16 bits of the wide accumulator follow the 16-bit reference
through the eight bit steps. -/
theorem spCrcBits_mod (n : Nat) : ∀ c : Nat, spCrcBits n c % 65536 = xmodemBits n (c % 65536) := by
  induction n with
  | zero => intro c; rfl
  | succ n ih =>
    intro c
    have hshift : (c <<< 1) % 4294967296 % 65536 = ((c % 65536) <<< 1) % 65536 := by
      simp only [Nat.shiftLeft_eq]
      omega
    simp only [spCrcBits, xmodemBits, and_bit15_mod]
    by_cases hbit : c &&& 0x8000 ≠ 0
    · rw [if_pos hbit, if_pos hbit, ih]
      congr 1
      rw [xor_mod_65536, hshift, xor_mod_65536 ((c % 65536) <<< 1)]
    · rw [if_neg hbit, if_neg hbit, ih, hshift]

theorem spCrcLoop_mod (msg : List Nat) : ∀ c : Nat,
    spCrcLoop msg c % 65536 =
      msg.foldl (fun crc b => xmodemBits 8 ((crc ^^^ (b <<< 8)) % 65536)) (c % 65536) := by
  induction msg with
  | nil => intro c; rfl
  | cons b rest ih =>
    intro c
    have hb : (b <<< 8) % 4294967296 % 65536 = (b <<< 8) % 65536 := by omega
    simp only [spCrcLoop, List.foldl_cons]
    rw [ih, spCrcBits_mod]
    congr 2
    rw [xor_mod_65536, hb, xor_mod_65536 (c % 65536), Nat.mod_mod]

/-- C6 fails as stated: on `01 03 00 00 00 0A` the function `mb_crc16` does not
return `0xC5CD`. -/
theorem mb_crc16_not_C5CD :
    mb_crc16 [0x01, 0x03, 0x00, 0x00, 0x00, 0x0A] ≠ 0xC5CD := by
  decide

/-- C6, amended: on `01 03 00 00 00 0A` the function `mb_crc16` returns
`0xCDC5`; its low byte `C5` goes on the wire first and its high byte `CD`
second, so that the slave at address 1 answers the frame ending `C5 CD` and
drops the frame ending `CD C5`. -/
theorem mb_crc16_vector :
    mb_crc16 [0x01, 0x03, 0x00, 0x00, 0x00, 0x0A] = 0xCDC5 ∧
      mb_crc16 [0x01, 0x03, 0x00, 0x00, 0x00, 0x0A] &&& 0xFF = 0xC5 ∧
      mb_crc16 [0x01, 0x03, 0x00, 0x00, 0x00, 0x0A] >>> 8 = 0xCD ∧
      (uart1_frame (List.replicate 224 1)
        [0x01, 0x03, 0x00, 0x00, 0x00, 0x0A, 0xC5, 0xCD] 8).response.isSome = true ∧
      (uart1_frame (List.replicate 224 1)
        [0x01, 0x03, 0x00, 0x00, 0x00, 0x0A, 0xCD, 0xC5] 8).response = none := by
  decide

/-- C7: for every byte sequence `sp_crc16`, which accumulates in a 32-bit `int`
and truncates on return, equals the 16-bit CRC-16/XMODEM reference
(polynomial `0x1021`, seed 0, most significant bit first). -/
theorem sp_crc16_eq_xmodem (msg : List Nat) : sp_crc16 msg = crc16Xmodem msg := by
  have h := spCrcLoop_mod msg 0
  simpa [sp_crc16, crc16Xmodem] using h

/-! ## Inbound SP frames -/

theorem be16_bytes (hi lo : Nat) (hhi : hi < 256) (hlo : lo < 256) :
    be16 hi lo = hi * 256 + lo := by
  have h := Nat.mul_add_lt_is_or (show lo < 2 ^ 8 by simpa using hlo) hi
  have e : hi <<< 8 = 2 ^ 8 * hi := by rw [Nat.shiftLeft_eq, Nat.mul_comm]
  rw [be16, e, ← h]
  omega

theorem getD_append_length (xs : List Nat) (a d : Nat) (ys : List Nat) (n : Nat)
    (hn : n = xs.length) : (xs ++ a :: ys).getD n d = a := by
  subst hn
  exact getD_length_append xs a d ys

/-- C8 fails as stated: the frame below carries `82 45`, the `sp_crc16` of all
its bytes except the first four and the last two, and `sp_exe_in` accepts it
(raw mode is reached), although `sp_crc16` over every byte after the two
leading `FF` is `6D5C`. -/
theorem sp_exe_in_crc_skips_four :
    (sp_exe_in (fun _ _ st => st)
        [0xFF, 0xFF, 0x10, 0x01, 0x80, 0x00, 0x10, 0x1F, 0x03, 0x10, 0x02, 0x31, 0x10, 0x03,
          0x82, 0x45] 16 true
        ⟨List.replicate 224 0, 0x1D00, 0xFFFF, -1, -1, List.replicate 96 0, 0⟩).1 = SpExit.raw ∧
      sp_crc16 [0x10, 0x01, 0x80, 0x00, 0x10, 0x1F, 0x03, 0x10, 0x02, 0x31, 0x10, 0x03] = 0x6D5C ∧
      sp_crc16 [0x80, 0x00, 0x10, 0x1F, 0x03, 0x10, 0x02, 0x31, 0x10, 0x03] = 0x8245 := by
  decide

/-- C8, amended: `sp_exe_in` accepts the checksum of an inbound frame of at
least 10 bytes (it leaves neither by the short-frame nor by the CRC exit)
exactly when its last two bytes, high byte first, equal `sp_crc16` computed
over all bytes except the first four (the two link-sync bytes and the
`DLE SOH` pair) and the two CRC bytes. -/
theorem sp_exe_in_crc_accepts (standardTail : List Nat → Nat → SpState → SpState)
    (pre body : List Nat) (hi lo : Nat) (mallocOk : Bool) (st : SpState)
    (hpre : pre.length = 4) (hbody : 4 ≤ body.length) (hhi : hi < 256) (hlo : lo < 256) :
    (sp_exe_in standardTail (pre ++ body ++ [hi, lo]) (pre ++ body ++ [hi, lo]).length
        mallocOk st).1 ≠ SpExit.shortFrame ∧
      ((sp_exe_in standardTail (pre ++ body ++ [hi, lo]) (pre ++ body ++ [hi, lo]).length
        mallocOk st).1 ≠ SpExit.crcError ↔ sp_crc16 body = hi * 256 + lo) := by
  have hlen : (pre ++ body ++ [hi, lo]).length = body.length + 6 := by
    simp [hpre]; omega
  have hshort : ¬ (pre ++ body ++ [hi, lo]).length < 10 := by omega
  have hrecv : spReceivedCrc (pre ++ body ++ [hi, lo]) (pre ++ body ++ [hi, lo]).length =
      hi * 256 + lo := by
    have h1 : (pre ++ body ++ [hi, lo]).getD ((pre ++ body ++ [hi, lo]).length - 2) 0 = hi :=
      getD_append_length (pre ++ body) hi 0 [lo] _ (by simp; omega)
    have h2 : (pre ++ body ++ [hi, lo]).getD ((pre ++ body ++ [hi, lo]).length - 1) 0 = lo := by
      have e : pre ++ body ++ [hi, lo] = (pre ++ body ++ [hi]) ++ lo :: [] := by simp
      rw [e]
      exact getD_append_length (pre ++ body ++ [hi]) lo 0 [] _ (by simp)
    rw [spReceivedCrc, h1, h2, be16_bytes hi lo hhi hlo]
  have hcalc : spCalculatedCrc (pre ++ body ++ [hi, lo]) (pre ++ body ++ [hi, lo]).length =
      sp_crc16 body := by
    have e1 : (pre ++ body ++ [hi, lo]).drop 4 = body ++ [hi, lo] := by
      rw [List.append_assoc, ← hpre, List.drop_left]
    have e2 : (pre ++ body ++ [hi, lo]).length - 6 = body.length := by omega
    rw [spCalculatedCrc, e1, e2, List.take_left]
  simp only [sp_exe_in, if_neg hshort, hrecv, hcalc]
  by_cases hcrc : hi * 256 + lo = sp_crc16 body
  · have hne : ¬ (hi * 256 + lo ≠ sp_crc16 body) := by simpa using hcrc
    rw [if_neg hne]
    refine ⟨?_, ?_⟩
    · split_ifs <;> simp
    · constructor
      · intro _; exact hcrc.symm
      · intro _; split_ifs <;> simp
  · rw [if_pos hcrc]
    refine ⟨by simp, ?_⟩
    constructor
    · intro h; exact absurd rfl h
    · intro h; exact absurd h.symm hcrc

/-- C8 amended, at the 16-byte frame `FF FF 10 01 80 00 10 1F 03 10 02 31 10 03 82 45`. -/
theorem sp_exe_in_crc_accepts_witness :
    (sp_exe_in (fun _ _ st => st)
        ([0xFF, 0xFF, 0x10, 0x01] ++
          [0x80, 0x00, 0x10, 0x1F, 0x03, 0x10, 0x02, 0x31, 0x10, 0x03] ++ [0x82, 0x45])
        ([0xFF, 0xFF, 0x10, 0x01] ++
          [0x80, 0x00, 0x10, 0x1F, 0x03, 0x10, 0x02, 0x31, 0x10, 0x03] ++ [0x82, 0x45]).length
        true ⟨List.replicate 224 0, 0x1D00, 0xFFFF, -1, -1, List.replicate 96 0, 0⟩).1 ≠
        SpExit.shortFrame ∧
      ((sp_exe_in (fun _ _ st => st)
        ([0xFF, 0xFF, 0x10, 0x01] ++
          [0x80, 0x00, 0x10, 0x1F, 0x03, 0x10, 0x02, 0x31, 0x10, 0x03] ++ [0x82, 0x45])
        ([0xFF, 0xFF, 0x10, 0x01] ++
          [0x80, 0x00, 0x10, 0x1F, 0x03, 0x10, 0x02, 0x31, 0x10, 0x03] ++ [0x82, 0x45]).length
        true ⟨List.replicate 224 0, 0x1D00, 0xFFFF, -1, -1, List.replicate 96 0, 0⟩).1 ≠
        SpExit.crcError ↔
        sp_crc16 [0x80, 0x00, 0x10, 0x1F, 0x03, 0x10, 0x02, 0x31, 0x10, 0x03] =
          0x82 * 256 + 0x45) :=
  sp_exe_in_crc_accepts (fun _ _ st => st) [0xFF, 0xFF, 0x10, 0x01]
    [0x80, 0x00, 0x10, 0x1F, 0x03, 0x10, 0x02, 0x31, 0x10, 0x03] 0x82 0x45 true
    ⟨List.replicate 224 0, 0x1D00, 0xFFFF, -1, -1, List.replicate 96 0, 0⟩
    (by decide) (by decide) (by decide) (by decide)

/-! ## Modbus function 0x03 -/

theorem mbCrcBits_lt (n : Nat) : ∀ c : Nat, c < 65536 → mbCrcBits n c < 65536 := by
  induction n with
  | zero => intro c hc; exact hc
  | succ n ih =>
    intro c hc
    simp only [mbCrcBits]
    split
    · exact ih _ (Nat.mod_lt _ (by norm_num))
    · apply ih
      rw [Nat.shiftRight_eq_div_pow]
      exact lt_of_le_of_lt (Nat.div_le_self _ _) hc

theorem mbCrcLoop_lt (buffer : List Nat) : ∀ c : Nat, c < 65536 → mbCrcLoop buffer c < 65536 := by
  induction buffer with
  | nil => intro c hc; exact hc
  | cons b rest ih =>
    intro c _
    simp only [mbCrcLoop]
    exact ih _ (mbCrcBits_lt 8 _ (Nat.mod_lt _ (by norm_num)))

theorem mb_crc16_lt (buffer : List Nat) : mb_crc16 buffer < 65536 :=
  mbCrcLoop_lt buffer 0xFFFF (by norm_num)

theorem crc_high_byte (buffer : List Nat) : (mb_crc16 buffer >>> 8) % 256 = mb_crc16 buffer >>> 8 := by
  have h := mb_crc16_lt buffer
  rw [Nat.shiftRight_eq_div_pow]
  apply Nat.mod_eq_of_lt
  omega

/-- C9: a validated function-0x03 request whose window is not wholly inside
the 224-register bank (start at or beyond 224, or start plus count beyond 224)
is answered by exactly the five bytes `address, 0x83, 0x02, CRC low, CRC high`,
the CRC being `mb_crc16` of the first three; no register is read or written. -/
theorem read_outside_bank_exception (regs data_buf : List Nat) (data_len : Nat)
    (hlen : 4 ≤ data_len)
    (haddr : data_buf.getD 0 0 = regs.getD 0x01 0)
    (hcrc : be16 (data_buf.getD (data_len - 1) 0) (data_buf.getD (data_len - 2) 0) =
      mb_crc16 (data_buf.take (data_len - 2)))
    (hfunc : data_buf.getD 1 0 = 0x03)
    (hwin : be16 (data_buf.getD 2 0) (data_buf.getD 3 0) ≥ 224 ∨
      be16 (data_buf.getD 2 0) (data_buf.getD 3 0) +
        be16 (data_buf.getD 4 0) (data_buf.getD 5 0) > 224) :
    uart1_frame regs data_buf data_len =
      ⟨some [data_buf.getD 0 0, 0x83, 0x02,
          mb_crc16 [data_buf.getD 0 0, 0x83, 0x02] &&& 0xFF,
          mb_crc16 [data_buf.getD 0 0, 0x83, 0x02] >>> 8],
        regs, none, none⟩ := by
  have h1 : ¬ data_len < 4 := by omega
  have h2 : ¬ (data_buf.getD 0 0 ≠ regs.getD 0x01 0) := by simpa using haddr
  have h3 : ¬ (be16 (data_buf.getD (data_len - 1) 0) (data_buf.getD (data_len - 2) 0) ≠
      mb_crc16 (data_buf.take (data_len - 2))) := by simpa using hcrc
  have h4 : be16 (data_buf.getD 2 0) (data_buf.getD 3 0) ≥ MAX_REGS ∨
      be16 (data_buf.getD 2 0) (data_buf.getD 3 0) +
        be16 (data_buf.getD 4 0) (data_buf.getD 5 0) > MAX_REGS ∨
      be16 (data_buf.getD 4 0) (data_buf.getD 5 0) = 0 := by
    have hm : MAX_REGS = 224 := by decide
    rw [hm]
    rcases hwin with h | h
    · exact Or.inl h
    · exact Or.inr (Or.inl h)
  have h5 : (0x03 ||| 0x80) % 256 = 0x83 := by decide
  simp only [uart1_frame, if_neg h1, if_neg h2, if_neg h3, hfunc, if_true, if_pos h4,
    generate_error, h5, crc_high_byte]

/-- C9, at the request `04 03 00 E0 00 01 85 A9` (start 224, count 1) sent to
the slave with address 4. -/
theorem read_outside_bank_exception_witness :
    uart1_frame (List.replicate 224 4) [0x04, 0x03, 0x00, 0xE0, 0x00, 0x01, 0x85, 0xA9] 8 =
      ⟨some [0x04, 0x83, 0x02, 0xD0, 0xF0], List.replicate 224 4, none, none⟩ :=
  read_outside_bank_exception (List.replicate 224 4)
    [0x04, 0x03, 0x00, 0xE0, 0x00, 0x01, 0x85, 0xA9] 8
    (by decide) (by decide) (by decide) (by decide) (by decide)

theorem registerBytes_length (regs : List Nat) (start_reg : Nat) (n : Nat) :
    ∀ i : Nat, (registerBytes regs start_reg n i).length = 2 * n := by
  induction n with
  | zero => intro i; rfl
  | succ n ih => intro i; simp only [registerBytes, List.length_cons, ih]; omega

theorem send_register_data_length (regs : List Nat) (slave_addr start_reg count : Nat) :
    (send_register_data regs slave_addr start_reg count).length = 5 + 2 * count := by
  simp only [send_register_data, List.length_append, List.length_cons, List.length_nil,
    registerBytes_length]
  omega

theorem send_register_data_byte_count (regs : List Nat) (slave_addr start_reg count : Nat) :
    (send_register_data regs slave_addr start_reg count).getD 2 0 = (2 * count) % 256 := by
  simp [send_register_data]

/-- A validated function-0x03 request for `n ≥ 1` registers from `s` with
`s + n ≤ 224` is answered by the bytes built by `send_register_data`. -/
theorem read_inside_bank_response (regs data_buf : List Nat) (data_len : Nat)
    (hlen : 4 ≤ data_len)
    (haddr : data_buf.getD 0 0 = regs.getD 0x01 0)
    (hcrc : be16 (data_buf.getD (data_len - 1) 0) (data_buf.getD (data_len - 2) 0) =
      mb_crc16 (data_buf.take (data_len - 2)))
    (hfunc : data_buf.getD 1 0 = 0x03)
    (hn : 1 ≤ be16 (data_buf.getD 4 0) (data_buf.getD 5 0))
    (hwin : be16 (data_buf.getD 2 0) (data_buf.getD 3 0) +
      be16 (data_buf.getD 4 0) (data_buf.getD 5 0) ≤ 224) :
    uart1_frame regs data_buf data_len =
      ⟨some (send_register_data regs (data_buf.getD 0 0)
          (be16 (data_buf.getD 2 0) (data_buf.getD 3 0))
          (be16 (data_buf.getD 4 0) (data_buf.getD 5 0))),
        regs, none, none⟩ := by
  have h1 : ¬ data_len < 4 := by omega
  have h2 : ¬ (data_buf.getD 0 0 ≠ regs.getD 0x01 0) := by simpa using haddr
  have h3 : ¬ (be16 (data_buf.getD (data_len - 1) 0) (data_buf.getD (data_len - 2) 0) ≠
      mb_crc16 (data_buf.take (data_len - 2))) := by simpa using hcrc
  have h4 : ¬ (be16 (data_buf.getD 2 0) (data_buf.getD 3 0) ≥ MAX_REGS ∨
      be16 (data_buf.getD 2 0) (data_buf.getD 3 0) +
        be16 (data_buf.getD 4 0) (data_buf.getD 5 0) > MAX_REGS ∨
      be16 (data_buf.getD 4 0) (data_buf.getD 5 0) = 0) := by
    have hm : MAX_REGS = 224 := by decide
    rw [hm]
    omega
  simp only [uart1_frame, if_neg h1, if_neg h2, if_neg h3, hfunc, if_true, if_neg h4]

/-- C10 fails on the code: the request `04 03 00 00 00 80 44 3F` (128 registers
from 0, a window inside the bank) is accepted and answered with
`5 + 2 * 128 = 261` bytes, but the byte-count header of the response is `0`,
not `2 * 128 = 256`, because `response[2]` is a `uint8_t`. -/
theorem read_byte_count_truncated :
    (uart1_frame (List.replicate 224 4)
        [0x04, 0x03, 0x00, 0x00, 0x00, 0x80, 0x44, 0x3F] 8).response.map
        (fun r => (r.length, r.getD 2 0)) = some (261, 0) := by
  rw [read_inside_bank_response (List.replicate 224 4)
    [0x04, 0x03, 0x00, 0x00, 0x00, 0x80, 0x44, 0x3F] 8
    (by decide) (by decide) (by decide) (by decide) (by decide) (by decide)]
  simp only [Option.map_some', send_register_data_length, send_register_data_byte_count]
  decide

/-! ## Modbus functions 0x06, 0x10 and the exception responses -/

theorem max_regs_eq : MAX_REGS = 224 := by decide

theorem generate_error_shape (mb_addr mb_func error_code : Nat) (hf : mb_func < 256) :
    generate_error mb_addr mb_func error_code =
      [mb_addr, mb_func ||| 0x80, error_code,
        mb_crc16 [mb_addr, mb_func ||| 0x80, error_code] &&& 0xFF,
        mb_crc16 [mb_addr, mb_func ||| 0x80, error_code] >>> 8] := by
  have h : (mb_func ||| 0x80) % 256 = mb_func ||| 0x80 := by
    apply Nat.mod_eq_of_lt
    exact Nat.or_lt_two_pow (n := 8) (by simpa using hf) (by norm_num)
  simp only [generate_error, h, crc_high_byte]

/-- What `uart1_frame` does with a frame that passed the length, address and
CRC checks and carries function `0x06`. -/
theorem uart1_frame_write_single (regs data_buf : List Nat) (data_len : Nat)
    (hlen : 4 ≤ data_len)
    (haddr : data_buf.getD 0 0 = regs.getD 0x01 0)
    (hcrc : be16 (data_buf.getD (data_len - 1) 0) (data_buf.getD (data_len - 2) 0) =
      mb_crc16 (data_buf.take (data_len - 2)))
    (hfunc : data_buf.getD 1 0 = 0x06) :
    uart1_frame regs data_buf data_len =
      if (be16 (data_buf.getD 2 0) (data_buf.getD 3 0) ≥ 32 ∧
            be16 (data_buf.getD 2 0) (data_buf.getD 3 0) < 128) ∨
          be16 (data_buf.getD 2 0) (data_buf.getD 3 0) > 223 then
        ⟨some (generate_error (data_buf.getD 0 0) 0x06 0x02), regs, none, none⟩
      else
        ⟨some (data_buf.take 6 ++ [mb_crc16 (data_buf.take 6) &&& 0xFF,
            mb_crc16 (data_buf.take 6) >>> 8]),
          if be16 (data_buf.getD 2 0) (data_buf.getD 3 0) < 10 then
            write_parameter_to_nvs
              (regs.set (be16 (data_buf.getD 2 0) (data_buf.getD 3 0))
                (be16 (data_buf.getD 4 0) (data_buf.getD 5 0)))
              (be16 (data_buf.getD 2 0) (data_buf.getD 3 0))
              (be16 (data_buf.getD 4 0) (data_buf.getD 5 0))
          else
            regs.set (be16 (data_buf.getD 2 0) (data_buf.getD 3 0))
              (be16 (data_buf.getD 4 0) (data_buf.getD 5 0)),
          if be16 (data_buf.getD 2 0) (data_buf.getD 3 0) < 10 then
            some (be16 (data_buf.getD 2 0) (data_buf.getD 3 0),
              be16 (data_buf.getD 4 0) (data_buf.getD 5 0))
          else none,
          none⟩ := by
  have h1 : ¬ data_len < 4 := by omega
  have h2 : ¬ (data_buf.getD 0 0 ≠ regs.getD 0x01 0) := by simpa using haddr
  have h3 : ¬ (be16 (data_buf.getD (data_len - 1) 0) (data_buf.getD (data_len - 2) 0) ≠
      mb_crc16 (data_buf.take (data_len - 2))) := by simpa using hcrc
  have h63 : ¬ ((0x06 : Nat) = 0x03) := by decide
  have e1 : MAX_CONTROL_REGS = 32 := rfl
  have e2 : MAX_REGS - MAX_WRITE_REGS = 128 := by decide
  have e3 : MAX_REGS - 1 = 223 := by decide
  have e4 : MAX_PARAM_INDEX = 10 := rfl
  simp only [uart1_frame, if_neg h1, if_neg h2, if_neg h3, hfunc, if_neg h63, if_true,
    e1, e2, e3, e4, crc_high_byte]

/-- What `uart1_frame` does with a frame that passed the length, address and
CRC checks and carries function `0x10`, up to the two rejections. -/
theorem uart1_frame_write_multiple_rejects (regs data_buf : List Nat) (data_len : Nat)
    (hlen : 4 ≤ data_len)
    (haddr : data_buf.getD 0 0 = regs.getD 0x01 0)
    (hcrc : be16 (data_buf.getD (data_len - 1) 0) (data_buf.getD (data_len - 2) 0) =
      mb_crc16 (data_buf.take (data_len - 2)))
    (hfunc : data_buf.getD 1 0 = 0x10) :
    ((be16 (data_buf.getD 2 0) (data_buf.getD 3 0) < 32 ∨
        be16 (data_buf.getD 2 0) (data_buf.getD 3 0) > 223) →
      uart1_frame regs data_buf data_len =
        ⟨some (generate_error (data_buf.getD 0 0) 0x10 0x02), regs, none, none⟩) ∧
    (¬ (be16 (data_buf.getD 2 0) (data_buf.getD 3 0) < 32 ∨
        be16 (data_buf.getD 2 0) (data_buf.getD 3 0) > 223) →
      (be16 (data_buf.getD 4 0) (data_buf.getD 5 0) = 0 ∨
        be16 (data_buf.getD 4 0) (data_buf.getD 5 0) > 224 ∨
        data_buf.getD 6 0 ≠ 2 * be16 (data_buf.getD 4 0) (data_buf.getD 5 0)) →
      uart1_frame regs data_buf data_len =
        ⟨some (generate_error (data_buf.getD 0 0) 0x10 0x03), regs, none, none⟩) := by
  have h1 : ¬ data_len < 4 := by omega
  have h2 : ¬ (data_buf.getD 0 0 ≠ regs.getD 0x01 0) := by simpa using haddr
  have h3 : ¬ (be16 (data_buf.getD (data_len - 1) 0) (data_buf.getD (data_len - 2) 0) ≠
      mb_crc16 (data_buf.take (data_len - 2))) := by simpa using hcrc
  have ha : ¬ ((0x10 : Nat) = 0x03) := by decide
  have hb : ¬ ((0x10 : Nat) = 0x06) := by decide
  have e1 : MAX_CONTROL_REGS = 32 := rfl
  have e2 : MAX_REGS = 224 := by decide
  have e3 : MAX_REGS - 1 = 223 := by decide
  constructor
  · intro hs
    simp only [uart1_frame, if_neg h1, if_neg h2, if_neg h3, hfunc, if_neg ha, if_neg hb,
      if_true, e1, e3, if_pos hs]
  · intro hs hn
    simp only [uart1_frame, if_neg h1, if_neg h2, if_neg h3, hfunc, if_neg ha, if_neg hb,
      if_true, e1, e2, e3, if_neg hs, if_pos hn]

theorem getD_set_eq (l : List Nat) (i x : Nat) (h : i < l.length) :
    (l.set i x).getD i 0 = x := by
  simp [h]

theorem getD_set_ne (l : List Nat) (i j x : Nat) (h : j ≠ i) :
    (l.set i x).getD j 0 = l.getD j 0 := by
  simp [List.getElem?_set_ne (Ne.symm h)]

theorem echo_second_byte (data_buf t : List Nat) (hfunc : data_buf.getD 1 0 = 0x06) :
    (data_buf.take 6 ++ t).getD 1 0 = 0x06 := by
  match data_buf, hfunc with
  | [], h => simp at h
  | [_], h => simp at h
  | x :: y :: ys, h => simpa using h

/-- C11: a validated function-0x06 request is accepted (answered by the echo
of its six bytes and the CRC) exactly when its address lies in 0x00-0x1F or in
0x80-0xDF; for every address in 0x20-0x7F or beyond 0xDF the response is the
exception `address, 0x86, 0x02, CRC low, CRC high` and no register is
modified. -/
theorem write_single_accepted_iff (regs data_buf : List Nat) (data_len : Nat)
    (hlen : 4 ≤ data_len)
    (haddr : data_buf.getD 0 0 = regs.getD 0x01 0)
    (hcrc : be16 (data_buf.getD (data_len - 1) 0) (data_buf.getD (data_len - 2) 0) =
      mb_crc16 (data_buf.take (data_len - 2)))
    (hfunc : data_buf.getD 1 0 = 0x06) :
    ((uart1_frame regs data_buf data_len).response =
        some (data_buf.take 6 ++ [mb_crc16 (data_buf.take 6) &&& 0xFF,
          mb_crc16 (data_buf.take 6) >>> 8]) ↔
      (be16 (data_buf.getD 2 0) (data_buf.getD 3 0) ≤ 0x1F ∨ (0x80 ≤ be16 (data_buf.getD 2 0) (data_buf.getD 3 0) ∧ be16 (data_buf.getD 2 0) (data_buf.getD 3 0) ≤ 0xDF))) ∧
    (((0x20 ≤ be16 (data_buf.getD 2 0) (data_buf.getD 3 0) ∧ be16 (data_buf.getD 2 0) (data_buf.getD 3 0) ≤ 0x7F) ∨ 0xDF < be16 (data_buf.getD 2 0) (data_buf.getD 3 0)) →
      uart1_frame regs data_buf data_len =
        ⟨some [data_buf.getD 0 0, 0x86, 0x02,
            mb_crc16 [data_buf.getD 0 0, 0x86, 0x02] &&& 0xFF,
            mb_crc16 [data_buf.getD 0 0, 0x86, 0x02] >>> 8],
          regs, none, none⟩) := by
  have h := uart1_frame_write_single regs data_buf data_len hlen haddr hcrc hfunc
  have hg := generate_error_shape (data_buf.getD 0 0) 0x06 0x02 (by norm_num)
  have h86 : (0x06 ||| 0x80 : Nat) = 0x86 := by decide
  rw [h86] at hg
  by_cases hrej : (be16 (data_buf.getD 2 0) (data_buf.getD 3 0) ≥ 32 ∧ be16 (data_buf.getD 2 0) (data_buf.getD 3 0) < 128) ∨ be16 (data_buf.getD 2 0) (data_buf.getD 3 0) > 223
  · rw [if_pos hrej, hg] at h
    constructor
    · constructor
      · intro hresp
        rw [h] at hresp
        have h2 := congrArg (fun l => (l.getD [] : List Nat).getD 1 0) hresp
        simp only [Option.getD_some] at h2
        rw [echo_second_byte data_buf _ hfunc] at h2
        simp at h2
      · intro hacc
        omega
    · intro _
      exact h
  · rw [if_neg hrej] at h
    constructor
    · constructor
      · intro _
        omega
      · intro _
        rw [h]
    · intro hbad
      omega

/-- C11, at the accepted request `04 06 00 80 12 34 85 00` and the rejected
request `04 06 00 20 12 34 85 22`, both to the slave with address 4. -/
theorem write_single_accepted_iff_witness :
    (uart1_frame (List.replicate 224 4)
        [0x04, 0x06, 0x00, 0x80, 0x12, 0x34, 0x85, 0x00] 8).response =
        some [0x04, 0x06, 0x00, 0x80, 0x12, 0x34, 0x85, 0x00] ∧
      uart1_frame (List.replicate 224 4) [0x04, 0x06, 0x00, 0x20, 0x12, 0x34, 0x85, 0x22] 8 =
        ⟨some [0x04, 0x86, 0x02, 0xD3, 0xA0], List.replicate 224 4, none, none⟩ :=
  ⟨(write_single_accepted_iff (List.replicate 224 4)
      [0x04, 0x06, 0x00, 0x80, 0x12, 0x34, 0x85, 0x00] 8
      (by decide) (by decide) (by decide) (by decide)).1.2 (by decide),
    (write_single_accepted_iff (List.replicate 224 4)
      [0x04, 0x06, 0x00, 0x20, 0x12, 0x34, 0x85, 0x22] 8
      (by decide) (by decide) (by decide) (by decide)).2 (by decide)⟩

/-- C12 fails as stated: the accepted request `04 06 00 02 03 E8 28 E1` writes
the value 1000 to the persisted register 2, whose range is 0 to 9; the request
is echoed and register 2 then holds 9. -/
theorem write_single_clamps_parameter :
    (uart1_frame (List.replicate 224 4)
        [0x04, 0x06, 0x00, 0x02, 0x03, 0xE8, 0x28, 0xE1] 8).response =
        some [0x04, 0x06, 0x00, 0x02, 0x03, 0xE8, 0x28, 0xE1] ∧
      be16 0x03 0xE8 = 1000 ∧
      (uart1_frame (List.replicate 224 4)
        [0x04, 0x06, 0x00, 0x02, 0x03, 0xE8, 0x28, 0xE1] 8).regs.getD 2 0 = 9 := by
  decide

/-- C12, amended: after an accepted function-0x06 request writing the value
`v` to the address `a` of the 224-register bank, register `a` holds `v` when
`a` is 10 or more and, when `a` is one of the persisted registers 0..9, the
value `v` clamped to the range of that parameter by `write_parameter_to_nvs`,
which is called for these addresses only; every other register is unchanged. -/
theorem write_single_effect (regs data_buf : List Nat) (data_len : Nat)
    (hregs : regs.length = 224)
    (hlen : 4 ≤ data_len)
    (haddr : data_buf.getD 0 0 = regs.getD 0x01 0)
    (hcrc : be16 (data_buf.getD (data_len - 1) 0) (data_buf.getD (data_len - 2) 0) =
      mb_crc16 (data_buf.take (data_len - 2)))
    (hfunc : data_buf.getD 1 0 = 0x06)
    (hacc : be16 (data_buf.getD 2 0) (data_buf.getD 3 0) ≤ 0x1F ∨ (0x80 ≤ be16 (data_buf.getD 2 0) (data_buf.getD 3 0) ∧ be16 (data_buf.getD 2 0) (data_buf.getD 3 0) ≤ 0xDF)) :
    (uart1_frame regs data_buf data_len).regs.getD (be16 (data_buf.getD 2 0) (data_buf.getD 3 0)) 0 =
        clamp_parameter_value (be16 (data_buf.getD 2 0) (data_buf.getD 3 0)) (be16 (data_buf.getD 4 0) (data_buf.getD 5 0)) ∧
      (10 ≤ be16 (data_buf.getD 2 0) (data_buf.getD 3 0) →
        (uart1_frame regs data_buf data_len).regs.getD (be16 (data_buf.getD 2 0) (data_buf.getD 3 0)) 0 = be16 (data_buf.getD 4 0) (data_buf.getD 5 0)) ∧
      (∀ j, j ≠ be16 (data_buf.getD 2 0) (data_buf.getD 3 0) →
        (uart1_frame regs data_buf data_len).regs.getD j 0 = regs.getD j 0) ∧
      (uart1_frame regs data_buf data_len).regs.length = regs.length ∧
      (uart1_frame regs data_buf data_len).nvs =
        (if be16 (data_buf.getD 2 0) (data_buf.getD 3 0) < 10 then some (be16 (data_buf.getD 2 0) (data_buf.getD 3 0), be16 (data_buf.getD 4 0) (data_buf.getD 5 0)) else none) := by
  have h := uart1_frame_write_single regs data_buf data_len hlen haddr hcrc hfunc
  have hrej : ¬ ((be16 (data_buf.getD 2 0) (data_buf.getD 3 0) ≥ 32 ∧ be16 (data_buf.getD 2 0) (data_buf.getD 3 0) < 128) ∨ be16 (data_buf.getD 2 0) (data_buf.getD 3 0) > 223) := by omega
  rw [if_neg hrej] at h
  have hin : be16 (data_buf.getD 2 0) (data_buf.getD 3 0) < regs.length := by omega
  have hregs2 : (uart1_frame regs data_buf data_len).regs =
      regs.set (be16 (data_buf.getD 2 0) (data_buf.getD 3 0)) (clamp_parameter_value (be16 (data_buf.getD 2 0) (data_buf.getD 3 0)) (be16 (data_buf.getD 4 0) (data_buf.getD 5 0))) := by
    rw [h]
    by_cases h10 : be16 (data_buf.getD 2 0) (data_buf.getD 3 0) < 10
    · have hn : ¬ (be16 (data_buf.getD 2 0) (data_buf.getD 3 0) ≥ MAX_PARAM_INDEX) := by
        simp only [MAX_PARAM_INDEX]; omega
      simp only [if_pos h10, write_parameter_to_nvs, if_neg hn, List.set_set]
    · have hc : clamp_parameter_value (be16 (data_buf.getD 2 0) (data_buf.getD 3 0)) (be16 (data_buf.getD 4 0) (data_buf.getD 5 0)) = be16 (data_buf.getD 4 0) (data_buf.getD 5 0) := by
        have hp : be16 (data_buf.getD 2 0) (data_buf.getD 3 0) ≥ PARAMS_COUNT := by simp only [PARAMS_COUNT]; omega
        simp only [clamp_parameter_value, if_pos hp]
      simp only [if_neg h10, hc]
  refine ⟨?_, ?_, ?_, ?_, ?_⟩
  · rw [hregs2, getD_set_eq _ _ _ hin]
  · intro h10
    have hp : be16 (data_buf.getD 2 0) (data_buf.getD 3 0) ≥ PARAMS_COUNT := by simp only [PARAMS_COUNT]; omega
    rw [hregs2, getD_set_eq _ _ _ hin]
    simp only [clamp_parameter_value, if_pos hp]
  · intro j hj
    rw [hregs2, getD_set_ne _ _ _ _ hj]
  · rw [hregs2, List.length_set]
  · rw [h]

/-- C12 amended, at the request `04 06 00 02 03 E8 28 E1`: register 2 ends up
with `clamp_parameter_value 2 1000`. -/
theorem write_single_effect_witness :
    (uart1_frame (List.replicate 224 4)
        [0x04, 0x06, 0x00, 0x02, 0x03, 0xE8, 0x28, 0xE1] 8).regs.getD
        (be16 0x00 0x02) 0 = clamp_parameter_value (be16 0x00 0x02) (be16 0x03 0xE8) :=
  (write_single_effect (List.replicate 224 4)
    [0x04, 0x06, 0x00, 0x02, 0x03, 0xE8, 0x28, 0xE1] 8
    (List.length_replicate 224 4) (by decide) (by decide) (by decide) (by decide) (by decide)).1

/-- C13: a validated function-0x10 request with a permitted start address
(0x20 to 0xDF) whose declared byte count differs from twice the register count
is answered by the exception `address, 0x90, 0x03, CRC low, CRC high`, and no
register is modified. -/
theorem write_multiple_byte_count_exception (regs data_buf : List Nat) (data_len : Nat)
    (hlen : 4 ≤ data_len)
    (haddr : data_buf.getD 0 0 = regs.getD 0x01 0)
    (hcrc : be16 (data_buf.getD (data_len - 1) 0) (data_buf.getD (data_len - 2) 0) =
      mb_crc16 (data_buf.take (data_len - 2)))
    (hfunc : data_buf.getD 1 0 = 0x10)
    (hstart : 0x20 ≤ be16 (data_buf.getD 2 0) (data_buf.getD 3 0) ∧ be16 (data_buf.getD 2 0) (data_buf.getD 3 0) ≤ 0xDF)
    (hcount : data_buf.getD 6 0 ≠ 2 * be16 (data_buf.getD 4 0) (data_buf.getD 5 0)) :
    uart1_frame regs data_buf data_len =
      ⟨some [data_buf.getD 0 0, 0x90, 0x03,
          mb_crc16 [data_buf.getD 0 0, 0x90, 0x03] &&& 0xFF,
          mb_crc16 [data_buf.getD 0 0, 0x90, 0x03] >>> 8],
        regs, none, none⟩ := by
  have h := (uart1_frame_write_multiple_rejects regs data_buf data_len hlen haddr hcrc hfunc).2
    (by omega) (Or.inr (Or.inr hcount))
  have hg := generate_error_shape (data_buf.getD 0 0) 0x10 0x03 (by norm_num)
  have h90 : (0x10 ||| 0x80 : Nat) = 0x90 := by decide
  rw [h90] at hg
  rw [h, hg]

/-- C13, at the request `04 10 00 80 00 02 03 34 F1`: two registers declared
with a byte count of 3. -/
theorem write_multiple_byte_count_exception_witness :
    uart1_frame (List.replicate 224 4)
        [0x04, 0x10, 0x00, 0x80, 0x00, 0x02, 0x03, 0x34, 0xF1] 9 =
      ⟨some [0x04, 0x90, 0x03, 0x1C, 0x00], List.replicate 224 4, none, none⟩ :=
  write_multiple_byte_count_exception (List.replicate 224 4)
    [0x04, 0x10, 0x00, 0x80, 0x00, 0x02, 0x03, 0x34, 0xF1] 9
    (by decide) (by decide) (by decide) (by decide) (by decide) (by decide)

/-- C14: a validated function-0x10 request whose start address is in the
control range 0x00-0x1F or beyond 0xDF is answered by the exception
`address, 0x90, 0x02, CRC low, CRC high`, whatever its count and byte count,
and no register is modified. -/
theorem write_multiple_control_exception (regs data_buf : List Nat) (data_len : Nat)
    (hlen : 4 ≤ data_len)
    (haddr : data_buf.getD 0 0 = regs.getD 0x01 0)
    (hcrc : be16 (data_buf.getD (data_len - 1) 0) (data_buf.getD (data_len - 2) 0) =
      mb_crc16 (data_buf.take (data_len - 2)))
    (hfunc : data_buf.getD 1 0 = 0x10)
    (hstart : be16 (data_buf.getD 2 0) (data_buf.getD 3 0) ≤ 0x1F ∨ 0xDF < be16 (data_buf.getD 2 0) (data_buf.getD 3 0)) :
    uart1_frame regs data_buf data_len =
      ⟨some [data_buf.getD 0 0, 0x90, 0x02,
          mb_crc16 [data_buf.getD 0 0, 0x90, 0x02] &&& 0xFF,
          mb_crc16 [data_buf.getD 0 0, 0x90, 0x02] >>> 8],
        regs, none, none⟩ := by
  have h := (uart1_frame_write_multiple_rejects regs data_buf data_len hlen haddr hcrc hfunc).1
    (by omega)
  have hg := generate_error_shape (data_buf.getD 0 0) 0x10 0x02 (by norm_num)
  have h90 : (0x10 ||| 0x80 : Nat) = 0x90 := by decide
  rw [h90] at hg
  rw [h, hg]

/-- C14, at the request `04 10 00 05 00 01 02 12 34 94 22`, a well-formed write
of one register at the control address 5. -/
theorem write_multiple_control_exception_witness :
    uart1_frame (List.replicate 224 4)
        [0x04, 0x10, 0x00, 0x05, 0x00, 0x01, 0x02, 0x12, 0x34, 0x94, 0x22] 11 =
      ⟨some [0x04, 0x90, 0x02, 0xDD, 0xC0], List.replicate 224 4, none, none⟩ :=
  write_multiple_control_exception (List.replicate 224 4)
    [0x04, 0x10, 0x00, 0x05, 0x00, 0x01, 0x02, 0x12, 0x34, 0x94, 0x22] 11
    (by decide) (by decide) (by decide) (by decide) (by decide)

/-- C15 fails on the code: the nine-byte frame `04 10 00 80 00 02 04 75 33`
declares two registers and four data bytes but carries none.  It passes the
checks and is answered by the eight-byte acknowledgement; register 0x80 takes
the two CRC bytes `75 33` and register 0x81 the bytes `DE AD` that lie in the
buffer after the nine received bytes. -/
theorem write_multiple_reads_past_frame :
    (uart1_frame (List.replicate 224 4)
        [0x04, 0x10, 0x00, 0x80, 0x00, 0x02, 0x04, 0x75, 0x33, 0xDE, 0xAD] 9).response =
        some [0x04, 0x10, 0x00, 0x80, 0x00, 0x02, 0x40, 0x75] ∧
      (uart1_frame (List.replicate 224 4)
        [0x04, 0x10, 0x00, 0x80, 0x00, 0x02, 0x04, 0x75, 0x33, 0xDE, 0xAD] 9).regs.getD
          0x80 0 = 0x7533 ∧
      (uart1_frame (List.replicate 224 4)
        [0x04, 0x10, 0x00, 0x80, 0x00, 0x02, 0x04, 0x75, 0x33, 0xDE, 0xAD] 9).regs.getD
          0x81 0 = 0xDEAD ∧
      9 ≤ 7 + 2 * 1 := by
  decide

/-- C16: a validated frame whose function code is not 0x03, 0x06 or 0x10 is
answered by exactly the five bytes `address, function | 0x80, 0x01, CRC low,
CRC high`, the CRC being `mb_crc16` of the first three, and nothing else
happens; the builder `generate_error` gives this shape to every exception
code. -/
theorem unknown_function_exception (regs data_buf : List Nat) (data_len : Nat)
    (hlen : 4 ≤ data_len)
    (haddr : data_buf.getD 0 0 = regs.getD 0x01 0)
    (hcrc : be16 (data_buf.getD (data_len - 1) 0) (data_buf.getD (data_len - 2) 0) =
      mb_crc16 (data_buf.take (data_len - 2)))
    (hbyte : data_buf.getD 1 0 < 256)
    (hfunc : data_buf.getD 1 0 ≠ 0x03 ∧ data_buf.getD 1 0 ≠ 0x06 ∧ data_buf.getD 1 0 ≠ 0x10) :
    uart1_frame regs data_buf data_len =
        ⟨some [data_buf.getD 0 0, data_buf.getD 1 0 ||| 0x80, 0x01,
            mb_crc16 [data_buf.getD 0 0, data_buf.getD 1 0 ||| 0x80, 0x01] &&& 0xFF,
            mb_crc16 [data_buf.getD 0 0, data_buf.getD 1 0 ||| 0x80, 0x01] >>> 8],
          regs, none, none⟩ ∧
      ∀ error_code : Nat,
        generate_error (data_buf.getD 0 0) (data_buf.getD 1 0) error_code =
          [data_buf.getD 0 0, data_buf.getD 1 0 ||| 0x80, error_code,
            mb_crc16 [data_buf.getD 0 0, data_buf.getD 1 0 ||| 0x80, error_code] &&& 0xFF,
            mb_crc16 [data_buf.getD 0 0, data_buf.getD 1 0 ||| 0x80, error_code] >>> 8] := by
  have h1 : ¬ data_len < 4 := by omega
  have h2 : ¬ (data_buf.getD 0 0 ≠ regs.getD 0x01 0) := by simpa using haddr
  have h3 : ¬ (be16 (data_buf.getD (data_len - 1) 0) (data_buf.getD (data_len - 2) 0) ≠
      mb_crc16 (data_buf.take (data_len - 2))) := by simpa using hcrc
  constructor
  · simp only [uart1_frame, if_neg h1, if_neg h2, if_neg h3, if_neg hfunc.1, if_neg hfunc.2.1,
      if_neg hfunc.2.2]
    rw [generate_error_shape _ _ _ hbyte]
  · intro error_code
    exact generate_error_shape _ _ _ hbyte

/-- C16, at the four-byte frame `04 2B 43 6F` with the unsupported function
`0x2B`. -/
theorem unknown_function_exception_witness :
    uart1_frame (List.replicate 224 4) [0x04, 0x2B, 0x43, 0x6F] 4 =
      ⟨some [0x04, 0xAB, 0x01, 0x8E, 0xF1], List.replicate 224 4, none, none⟩ :=
  (unknown_function_exception (List.replicate 224 4) [0x04, 0x2B, 0x43, 0x6F] 4
    (by decide) (by decide) (by decide) (by decide) (by decide)).1

/-- C17: when a frame is completed (a buffer is open and the silence exceeds
the timeout) and it is shorter than 4 bytes, or its first byte differs from
the slave address in register 1, or its last two bytes, low byte first, differ
from `mb_crc16` of the bytes before them, nothing is sent, no register is
modified and the buffer is back to empty (`data_buf` is `NULL`, `data_len` is
0); the same holds for the whole pass of the task loop in which no byte
arrives. -/
theorem invalid_frame_dropped (regs buf : List Nat) (data_len last_rx_time tick : Nat)
    (timeout_ticks : Nat)
    (hsilence : (tick + 4294967296 - last_rx_time) % 4294967296 > timeout_ticks)
    (hbad : data_len < 4 ∨ buf.getD 0 0 ≠ regs.getD 0x01 0 ∨
      be16 (buf.getD (data_len - 1) 0) (buf.getD (data_len - 2) 0) ≠
        mb_crc16 (buf.take (data_len - 2))) :
    uart1_timeout regs ⟨some buf, data_len, last_rx_time⟩ tick timeout_ticks =
        (⟨none, 0, last_rx_time⟩, ⟨none, regs, none, none⟩) ∧
      ∀ (fresh : Option (List Nat)) (tick_rx : Nat),
        uart1_iteration regs ⟨some buf, data_len, last_rx_time⟩ [] fresh tick_rx tick
            timeout_ticks =
          (⟨none, 0, last_rx_time⟩, ⟨none, regs, none, none⟩) := by
  have hframe : uart1_frame regs buf data_len = ⟨none, regs, none, none⟩ := by
    unfold uart1_frame
    by_cases h1 : data_len < 4
    · rw [if_pos h1]
    · rw [if_neg h1]
      by_cases h2 : buf.getD 0 0 ≠ regs.getD 0x01 0
      · rw [if_pos h2]
      · rw [if_neg h2]
        have h3 : be16 (buf.getD (data_len - 1) 0) (buf.getD (data_len - 2) 0) ≠
            mb_crc16 (buf.take (data_len - 2)) := by
          rcases hbad with h | h | h
          · exact absurd h h1
          · exact absurd h h2
          · exact h
        simp only [if_pos h3]
  have hstep : uart1_timeout regs ⟨some buf, data_len, last_rx_time⟩ tick timeout_ticks =
      (⟨none, 0, last_rx_time⟩, ⟨none, regs, none, none⟩) := by
    simp only [uart1_timeout, if_pos hsilence, hframe]
  refine ⟨hstep, ?_⟩
  intro fresh tick_rx
  simp [uart1_iteration, uart1_receive, hstep]

/-- C17, at the frame `04 03 00 00 00 0A` with the wrong checksum `00 00`,
completed 11 ticks after its last byte with a timeout of 4 ticks. -/
theorem invalid_frame_dropped_witness :
    uart1_timeout (List.replicate 224 4)
        ⟨some [0x04, 0x03, 0x00, 0x00, 0x00, 0x0A, 0x00, 0x00], 8, 100⟩ 111 4 =
      (⟨none, 0, 100⟩, ⟨none, List.replicate 224 4, none, none⟩) :=
  (invalid_frame_dropped (List.replicate 224 4)
    [0x04, 0x03, 0x00, 0x00, 0x00, 0x0A, 0x00, 0x00] 8 100 111 4
    (by decide) (by decide)).1

/-! ## Packing parsed fields into registers -/

theorem packBytes_length (v : List Nat) : (packBytes v).length = (v.length + 1) / 2 := by
  induction v using packBytes.induct with
  | case1 => rfl
  | case2 b => simp [packBytes]
  | case3 b0 b1 rest ih =>
    simp only [packBytes, List.length_cons, ih]
    omega

theorem packedFields_length_cons (p : param_block_t) (rest : List param_block_t) :
    (packedFields (p :: rest)).length =
      1 + (p.value.length + 1) / 2 + (packedFields rest).length := by
  simp only [packedFields, List.length_append, List.length_cons, packBytes_length]
  omega

/-- The packing loop writes the registers of `packBytes` from `reg_index` on. -/
theorem packValue_image (v : List Nat) :
    ∀ (pre out : List Nat), (∀ b ∈ v, b < 256) → (v.length + 1) / 2 ≤ out.length →
      packValue v pre.length (pre ++ out) =
        (pre.length + (packBytes v).length,
          pre ++ packBytes v ++ out.drop (packBytes v).length) := by
  induction v using packBytes.induct with
  | case1 => intro pre out _ _; simp [packValue, packBytes]
  | case2 b =>
    intro pre out hb hout
    obtain ⟨o, out1, rfl⟩ : ∃ o out1, out = o :: out1 := by
      cases out with
      | nil => simp at hout
      | cons o out1 => exact ⟨o, out1, rfl⟩
    have hlt : b < 256 := hb b (by simp)
    have hv : (b <<< 8) % 65536 = b * 256 := by
      rw [Nat.shiftLeft_eq]
      omega
    simp only [packValue, packBytes, hv, set_length_append]
    simp
  | case3 b0 b1 rest ih =>
    intro pre out hb hout
    obtain ⟨o, out1, rfl⟩ : ∃ o out1, out = o :: out1 := by
      cases out with
      | nil => simp only [List.length_cons, List.length_nil] at hout; omega
      | cons o out1 => exact ⟨o, out1, rfl⟩
    have h0 : b0 < 256 := hb b0 (by simp)
    have h1 : b1 < 256 := hb b1 (by simp)
    have hrest : ∀ b ∈ rest, b < 256 := fun b hm => hb b (by simp [hm])
    have hout1 : (rest.length + 1) / 2 ≤ out1.length := by
      simp only [List.length_cons] at hout
      omega
    simp only [packValue, packBytes, be16_bytes b0 b1 h0 h1, set_length_append]
    have e1 : pre ++ (b0 * 256 + b1) :: out1 = (pre ++ [b0 * 256 + b1]) ++ out1 := by simp
    have e2 : pre.length + 1 = (pre ++ [b0 * 256 + b1]).length := by simp
    rw [e1, e2, ih (pre ++ [b0 * 256 + b1]) out1 hrest hout1]
    simp
    omega

theorem fitCount_le (params : List param_block_t) :
    ∀ room : Nat, fitCount params room ≤ params.length := by
  induction params with
  | nil => intro room; simp [fitCount]
  | cons p rest ih =>
    intro room
    simp only [fitCount, List.length_cons]
    split
    · omega
    · have := ih (room - (1 + (p.value.length + 1) / 2))
      omega

theorem fitCount_fits (params : List param_block_t) :
    ∀ room : Nat, (packedFields (params.take (fitCount params room))).length ≤ room := by
  induction params with
  | nil => intro room; simp [fitCount, packedFields]
  | cons p rest ih =>
    intro room
    simp only [fitCount]
    split
    · simp [packedFields]
    · have h := ih (room - (1 + (p.value.length + 1) / 2))
      have e : List.take (1 + fitCount rest (room - (1 + (p.value.length + 1) / 2))) (p :: rest) =
          p :: List.take (fitCount rest (room - (1 + (p.value.length + 1) / 2))) rest := by
        rw [Nat.add_comm, List.take_succ_cons]
      rw [e, packedFields_length_cons]
      omega

theorem fitCount_stops (params : List param_block_t) :
    ∀ room : Nat, fitCount params room < params.length →
      room < (packedFields (params.take (fitCount params room + 1))).length := by
  induction params with
  | nil => intro room h; simp [fitCount] at h
  | cons p rest ih =>
    intro room hlt
    simp only [fitCount] at hlt ⊢
    split
    · rename_i hbig
      simp only [Nat.zero_add, List.take_succ_cons, List.take_zero, packedFields_length_cons]
      omega
    · rename_i hfit
      rw [if_neg hfit] at hlt
      simp only [List.length_cons] at hlt
      have h := ih (room - (1 + (p.value.length + 1) / 2)) (by omega)
      have e : List.take (1 + fitCount rest (room - (1 + (p.value.length + 1) / 2)) + 1)
          (p :: rest) =
          p :: List.take (fitCount rest (room - (1 + (p.value.length + 1) / 2)) + 1) rest := by
        rw [Nat.add_comm 1, List.take_succ_cons]
      rw [e, packedFields_length_cons]
      omega

theorem fitCount_all (params : List param_block_t) :
    ∀ room : Nat, (packedFields params).length ≤ room → fitCount params room = params.length := by
  induction params with
  | nil => intro room _; simp [fitCount]
  | cons p rest ih =>
    intro room h
    rw [packedFields_length_cons] at h
    have hfit : ¬ (1 + (p.value.length + 1) / 2 > room) := by omega
    simp only [fitCount, if_neg hfit, List.length_cons]
    rw [ih (room - (1 + (p.value.length + 1) / 2)) (by omega)]
    omega

/-- The field loop of `write_to_modbus`, started at `reg_index = pre.length`
with `room` registers left before the end of the window, writes the register
image of the leading fields that fit and counts them. -/
theorem writeFields_image (params : List param_block_t) :
    ∀ (pre out : List Nat) (written start room : Nat), byteFields params →
      pre.length + room = start + MAX_OUT_BUF_REGS → room ≤ out.length →
      written + 2 * room < 65536 →
      writeFields params pre.length written (pre ++ out) start =
        (pre.length + (packedFields (params.take (fitCount params room))).length,
          written + fitCount params room,
          pre ++ packedFields (params.take (fitCount params room)) ++
            out.drop (packedFields (params.take (fitCount params room))).length) := by
  induction params with
  | nil =>
    intro pre out written start room _ _ _ _
    simp [writeFields, fitCount, packedFields]
  | cons p rest ih =>
    intro pre out written start room hbytes hroom hout hw
    have hrest : byteFields rest := fun q hq b hb => hbytes q (by simp [hq]) b hb
    have hval : ∀ b ∈ p.value, b < 256 := fun b hb => hbytes p (by simp) b hb
    by_cases hbig : 1 + (p.value.length + 1) / 2 > room
    · have hcond : pre.length + (1 + (p.value.length + 1) / 2) > start + MAX_OUT_BUF_REGS := by
        omega
      simp only [writeFields, if_pos hcond, fitCount, if_pos hbig]
      simp [packedFields]
    · have hcond : ¬ (pre.length + (1 + (p.value.length + 1) / 2) >
          start + MAX_OUT_BUF_REGS) := by omega
      obtain ⟨o, out1, rfl⟩ : ∃ o out1, out = o :: out1 := by
        cases out with
        | nil => simp only [List.length_nil] at hout; omega
        | cons o out1 => exact ⟨o, out1, rfl⟩
      simp only [List.length_cons] at hout
      have hlen : p.value.length % 65536 = p.value.length := by
        apply Nat.mod_eq_of_lt
        omega
      have hwr : (written + 1) % 65536 = written + 1 := by
        apply Nat.mod_eq_of_lt
        omega
      simp only [writeFields, if_neg hcond, fitCount, if_neg hbig, hlen, hwr,
        set_length_append]
      have e1 : pre ++ p.value.length :: out1 = (pre ++ [p.value.length]) ++ out1 := by simp
      have e2 : pre.length + 1 = (pre ++ [p.value.length]).length := by simp
      rw [e1, e2, packValue_image p.value (pre ++ [p.value.length]) out1 hval (by omega)]
      simp only []
      have e3 : (pre ++ [p.value.length]).length + (packBytes p.value).length =
          (pre ++ [p.value.length] ++ packBytes p.value).length := by simp; omega
      rw [e3, ih (pre ++ [p.value.length] ++ packBytes p.value)
        (out1.drop (packBytes p.value).length) (written + 1) start
        (room - (1 + (p.value.length + 1) / 2)) hrest
        (by simp only [List.length_append, List.length_cons, List.length_nil,
              packBytes_length]; omega)
        (by simp only [List.length_drop, packBytes_length]; omega)
        (by omega)]
      have e4 : List.take (1 + fitCount rest (room - (1 + (p.value.length + 1) / 2)))
          (p :: rest) =
          p :: List.take (fitCount rest (room - (1 + (p.value.length + 1) / 2))) rest := by
        rw [Nat.add_comm, List.take_succ_cons]
      rw [e4]
      refine Prod.ext ?_ (Prod.ext ?_ ?_)
      · simp only [packedFields, List.length_append, List.length_cons, List.length_nil]
        omega
      · simp only []
        omega
      · simp only [packedFields, List.append_assoc, List.cons_append, List.nil_append,
          List.drop_drop, List.length_append, List.length_cons, List.drop_succ_cons]

/-- The function `write_to_modbus` called with the base `HLD_OUTPUT` on a bank
split as the 32 control registers, the count register and the rest. -/
theorem write_to_modbus_image (ctrl tail : List Nat) (c : Nat) (params : List param_block_t)
    (hctrl : ctrl.length = 32) (htail : 95 ≤ tail.length) (hbytes : byteFields params) :
    write_to_modbus (ctrl ++ c :: tail) params HLD_OUTPUT =
      ctrl ++ (fitCount params 95 :: packedFields (params.take (fitCount params 95))) ++
        tail.drop (packedFields (params.take (fitCount params 95))).length := by
  have hstart : ¬ (HLD_OUTPUT + MAX_OUT_BUF_REGS > MAX_REGS) := by decide
  have h32 : HLD_OUTPUT = ctrl.length := by rw [hctrl]; rfl
  have h33 : HLD_OUTPUT + 1 = (ctrl ++ [0]).length := by simp [hctrl]; rfl
  have himg := writeFields_image params (ctrl ++ [0]) tail 0 HLD_OUTPUT 95 hbytes
    (by simp [hctrl]; decide) htail (by norm_num)
  have hset : (ctrl ++ c :: tail).set HLD_OUTPUT 0 = ctrl ++ [0] ++ tail := by
    rw [h32, set_length_append]
    simp
  rw [← h33] at himg
  have e2 : ctrl ++ [0] ++ packedFields (List.take (fitCount params 95) params) ++
      List.drop (packedFields (List.take (fitCount params 95) params)).length tail =
      ctrl ++ 0 :: (packedFields (List.take (fitCount params 95) params) ++
        List.drop (packedFields (List.take (fitCount params 95) params)).length tail) := by
    simp
  simp only [write_to_modbus, if_neg hstart, hset, himg, Nat.zero_add]
  rw [e2, h32, set_length_append]
  simp

theorem bank_split (regs : List Nat) (hregs : regs.length = 224) :
    ∃ ctrl c tail, regs = ctrl ++ c :: tail ∧ ctrl.length = 32 ∧ tail.length = 191 ∧
      regs.take 0x20 = ctrl ∧ ∀ n, regs.drop (0x21 + n) = tail.drop n := by
  have hne : regs.drop 32 ≠ [] := by
    intro h
    have := congrArg List.length h
    simp [hregs] at this
  obtain ⟨c, tail, hct⟩ := List.exists_cons_of_ne_nil hne
  have hsplit : regs = regs.take 32 ++ c :: tail := by
    rw [← hct, List.take_append_drop]
  have hl : (regs.take 32).length = 32 := by simp [hregs]
  refine ⟨regs.take 32, c, tail, hsplit, hl, ?_, rfl, ?_⟩
  · have := congrArg List.length hct
    simp [hregs] at this
    omega
  · intro n
    have e : (0x21 + n) = 32 + (1 + n) := by omega
    rw [e, ← List.drop_drop, hct]
    simp [Nat.add_comm 1 n]

/-- C18: when all fields fit in the 96-register window, `write_to_modbus`
stores at the base register 0x20 the field count and after it, for each field
in order, one register with the length of the value and then the value bytes
two per register, big-endian, a trailing odd byte in the high byte with a zero
low byte (`packedFields`, `ceil(length / 2)` registers per value); every other
register keeps its content. -/
theorem write_to_modbus_packs (regs : List Nat) (params : List param_block_t)
    (hregs : regs.length = 224) (hbytes : byteFields params)
    (hfit : 1 + (packedFields params).length ≤ 96) :
    write_to_modbus regs params HLD_OUTPUT =
        regs.take 0x20 ++ (params.length :: packedFields params) ++
          regs.drop (0x21 + (packedFields params).length) ∧
      ∀ p ∈ params, (packBytes p.value).length = (p.value.length + 1) / 2 := by
  obtain ⟨ctrl, c, tail, hsplit, hctrl, htail, htake, hdrop⟩ := bank_split regs hregs
  have hall := fitCount_all params 95 (by omega)
  refine ⟨?_, fun p _ => packBytes_length p.value⟩
  rw [htake, hdrop, hsplit, write_to_modbus_image ctrl tail c params hctrl (by omega) hbytes,
    hall, List.take_length]

/-- C18, at the two fields `31 32 33` and `41 42` on a bank of zeros. -/
theorem write_to_modbus_packs_witness :
    write_to_modbus (List.replicate 224 0)
        [⟨[0x31, 0x32, 0x33], [], []⟩, ⟨[0x41, 0x42], [], []⟩] HLD_OUTPUT =
      (List.replicate 224 0).take 0x20 ++
        ([(⟨[0x31, 0x32, 0x33], [], []⟩ : param_block_t), ⟨[0x41, 0x42], [], []⟩].length ::
          packedFields [⟨[0x31, 0x32, 0x33], [], []⟩, ⟨[0x41, 0x42], [], []⟩]) ++
        (List.replicate 224 0).drop (0x21 +
          (packedFields [⟨[0x31, 0x32, 0x33], [], []⟩, ⟨[0x41, 0x42], [], []⟩]).length) ∧
      packedFields [⟨[0x31, 0x32, 0x33], [], []⟩, ⟨[0x41, 0x42], [], []⟩] =
        [3, 0x3132, 0x3300, 2, 0x4142] :=
  ⟨(write_to_modbus_packs (List.replicate 224 0)
      [⟨[0x31, 0x32, 0x33], [], []⟩, ⟨[0x41, 0x42], [], []⟩]
      (List.length_replicate 224 0) (by simp [byteFields]) (by decide)).1, by decide⟩

/-- C19: for every list of parsed fields `write_to_modbus` writes only inside
the read window 0x20-0x7F of the 224-register bank.  It writes the first `k`
fields, where `k` is the number of leading fields that fit in the window
together with the count register: it stops at the first field that would not
fit entirely, the count register 0x20 then holds `k`, and every register below
0x20 or from 0x80 on keeps its content. -/
theorem write_to_modbus_stays_in_window (regs : List Nat) (params : List param_block_t)
    (hregs : regs.length = 224) (hbytes : byteFields params) :
    ∃ k, k ≤ params.length ∧
      1 + (packedFields (params.take k)).length ≤ 96 ∧
      (k < params.length → 96 < 1 + (packedFields (params.take (k + 1))).length) ∧
      write_to_modbus regs params HLD_OUTPUT =
        regs.take 0x20 ++ (k :: packedFields (params.take k)) ++
          regs.drop (0x21 + (packedFields (params.take k)).length) ∧
      (write_to_modbus regs params HLD_OUTPUT).length = regs.length ∧
      ∀ j, j < 0x20 ∨ 0x80 ≤ j →
        (write_to_modbus regs params HLD_OUTPUT).getD j 0 = regs.getD j 0 := by
  obtain ⟨ctrl, c, tail, hsplit, hctrl, htail, htake, hdrop⟩ := bank_split regs hregs
  have hfits := fitCount_fits params 95
  have himage : write_to_modbus regs params HLD_OUTPUT =
      regs.take 0x20 ++ (fitCount params 95 ::
        packedFields (params.take (fitCount params 95))) ++
        regs.drop (0x21 + (packedFields (params.take (fitCount params 95))).length) := by
    rw [htake, hdrop]
    nth_rewrite 1 [hsplit]
    exact write_to_modbus_image ctrl tail c params hctrl (by omega) hbytes
  refine ⟨fitCount params 95, fitCount_le params 95, by omega, ?_, himage, ?_, ?_⟩
  · intro hlt
    have := fitCount_stops params 95 hlt
    omega
  · rw [himage]
    simp only [List.length_append, List.length_cons, List.length_take, List.length_drop, hregs]
    omega
  · intro j hj
    rw [himage]
    rcases hj with hj | hj
    · have hlt : j < (regs.take 0x20).length := by simp [hregs]; omega
      rw [List.append_assoc, List.getD_append _ _ _ _ hlt]
      simp only [List.getD_eq_getElem?_getD]
      rw [List.getElem?_take_of_lt (by omega)]
    · have hge : (regs.take 0x20 ++ (fitCount params 95 ::
          packedFields (params.take (fitCount params 95)))).length ≤ j := by
        simp [hregs]
        omega
      rw [List.getD_append_right _ _ _ _ hge]
      simp only [List.getD_eq_getElem?_getD, List.getElem?_drop]
      congr 2
      simp [hregs]
      omega

/-- C19, at three fields of 100 bytes each: the first needs 51 registers, the
second does not fit in the 44 that are left. -/
theorem write_to_modbus_stays_in_window_witness :
    ∃ k, k ≤ [(⟨List.replicate 100 0x30, [], []⟩ : param_block_t),
          ⟨List.replicate 100 0x31, [], []⟩, ⟨List.replicate 100 0x32, [], []⟩].length ∧
      1 + (packedFields ([(⟨List.replicate 100 0x30, [], []⟩ : param_block_t),
          ⟨List.replicate 100 0x31, [], []⟩,
          ⟨List.replicate 100 0x32, [], []⟩].take k)).length ≤ 96 ∧
      (k < [(⟨List.replicate 100 0x30, [], []⟩ : param_block_t),
          ⟨List.replicate 100 0x31, [], []⟩, ⟨List.replicate 100 0x32, [], []⟩].length →
        96 < 1 + (packedFields ([(⟨List.replicate 100 0x30, [], []⟩ : param_block_t),
          ⟨List.replicate 100 0x31, [], []⟩,
          ⟨List.replicate 100 0x32, [], []⟩].take (k + 1))).length) ∧
      write_to_modbus (List.replicate 224 7)
          [⟨List.replicate 100 0x30, [], []⟩, ⟨List.replicate 100 0x31, [], []⟩,
            ⟨List.replicate 100 0x32, [], []⟩] HLD_OUTPUT =
        (List.replicate 224 7).take 0x20 ++
          (k :: packedFields ([(⟨List.replicate 100 0x30, [], []⟩ : param_block_t),
            ⟨List.replicate 100 0x31, [], []⟩,
            ⟨List.replicate 100 0x32, [], []⟩].take k)) ++
          (List.replicate 224 7).drop (0x21 +
            (packedFields ([(⟨List.replicate 100 0x30, [], []⟩ : param_block_t),
              ⟨List.replicate 100 0x31, [], []⟩,
              ⟨List.replicate 100 0x32, [], []⟩].take k)).length) ∧
      (write_to_modbus (List.replicate 224 7)
          [⟨List.replicate 100 0x30, [], []⟩, ⟨List.replicate 100 0x31, [], []⟩,
            ⟨List.replicate 100 0x32, [], []⟩] HLD_OUTPUT).length =
        (List.replicate 224 7).length ∧
      ∀ j, j < 0x20 ∨ 0x80 ≤ j →
        (write_to_modbus (List.replicate 224 7)
          [⟨List.replicate 100 0x30, [], []⟩, ⟨List.replicate 100 0x31, [], []⟩,
            ⟨List.replicate 100 0x32, [], []⟩] HLD_OUTPUT).getD j 0 =
          (List.replicate 224 7).getD j 0 :=
  write_to_modbus_stays_in_window (List.replicate 224 7)
    [⟨List.replicate 100 0x30, [], []⟩, ⟨List.replicate 100 0x31, [], []⟩,
      ⟨List.replicate 100 0x32, [], []⟩]
    (List.length_replicate 224 7) (by simp [byteFields])

/-! ## Raw mode -/

/-- In raw mode `sp_exe_in` never reports more than 48 words: the destuffed
length is cut to `MAX_OUT_BUF_REGS = 96` bytes before the words are counted. -/
theorem raw_mode_out_len_le (standardTail : List Nat → Nat → SpState → SpState)
    (data : List Nat) (data_len : Nat) (mallocOk : Bool) (st : SpState)
    (hraw : (sp_exe_in standardTail data data_len mallocOk st).1 = SpExit.raw) :
    (sp_exe_in standardTail data data_len mallocOk st).2.out_len ≤ 48 := by
  unfold sp_exe_in at hraw ⊢
  simp only [] at hraw ⊢
  split_ifs at hraw ⊢ <;> simp_all [MAX_OUT_BUF_REGS, SP_STORAGE_FILE_SIZE]
  omega

set_option maxRecDepth 100000 in
/-- C20 fails on the code: the 208-byte frame below has a valid checksum and
destuffs to 200 bytes; in raw mode `sp_exe_in` cuts them to 96 bytes and
reports 48 words, not the 192 bytes (96 words) of the claim and of the comment
on `max_bytes`. -/
theorem raw_mode_truncates_to_96_bytes :
    (deStaff ([0x10, 0x01, 0x00, 0x80, 0x10, 0x1F, 0x03, 0x10, 0x02] ++
        List.replicate 193 0x30 ++ [0x10, 0x03]) 204 (-1) (-1)).ret = 200 ∧
      (fun r : SpExit × SpState => (r.1, r.2.out_len))
        (sp_exe_in (fun _ _ st => st)
          ([0xFF, 0xFF, 0x10, 0x01, 0x00, 0x80, 0x10, 0x1F, 0x03, 0x10, 0x02] ++
            List.replicate 193 0x30 ++ [0x10, 0x03, 0xA2, 0xB3]) 208 true
          ⟨List.replicate 224 0, 0x1D00, 0xFFFF, -1, -1, List.replicate 96 0, 0⟩) =
        (SpExit.raw, 48) := by
  decide

/-! ## Inbound frames and the register bank -/

/-- Raw mode does not touch the register bank. -/
theorem raw_mode_keeps_registers (standardTail : List Nat → Nat → SpState → SpState)
    (data : List Nat) (data_len : Nat) (mallocOk : Bool) (st : SpState)
    (hraw : (sp_exe_in standardTail data data_len mallocOk st).1 = SpExit.raw) :
    (sp_exe_in standardTail data data_len mallocOk st).2.regs = st.regs := by
  unfold sp_exe_in at hraw ⊢
  simp only [] at hraw ⊢
  split_ifs at hraw ⊢ <;> simp_all

/-- C21 fails on the code: in raw mode the valid frame below is destuffed to
`01 80 00 1F 03 02 31 03` and packed into the four words `0180 001F 0302 3103`
of the local result buffer of `uart2_task`, which is never copied: after the
pass every register of the bank, the read window from 0x20 included, is what
it was before. -/
theorem raw_payload_not_in_registers :
    (uart2_inbound (fun _ _ st => st)
        [0xFF, 0xFF, 0x10, 0x01, 0x80, 0x00, 0x10, 0x1F, 0x03, 0x10, 0x02, 0x31, 0x10, 0x03,
          0x82, 0x45] 16 true (List.replicate 96 0)
        ⟨List.replicate 224 7, 0x1D00, 0xFFFF, -1, -1, [], 0⟩).regs = List.replicate 224 7 ∧
      (fun st : SpState => (st.out_len, st.out_buf.take 4))
        (uart2_inbound (fun _ _ st => st)
          [0xFF, 0xFF, 0x10, 0x01, 0x80, 0x00, 0x10, 0x1F, 0x03, 0x10, 0x02, 0x31, 0x10, 0x03,
            0x82, 0x45] 16 true (List.replicate 96 0)
          ⟨List.replicate 224 7, 0x1D00, 0xFFFF, -1, -1, [], 0⟩) =
        (4, [0x0180, 0x001F, 0x0302, 0x3103]) := by
  have hraw : (sp_exe_in (fun _ _ st => st)
      [0xFF, 0xFF, 0x10, 0x01, 0x80, 0x00, 0x10, 0x1F, 0x03, 0x10, 0x02, 0x31, 0x10, 0x03,
        0x82, 0x45] 16 true
      ⟨List.replicate 224 7, 0x1D00, 0xFFFF, -1, -1, List.replicate 96 0, 0⟩).1 =
      SpExit.raw := by decide
  refine ⟨?_, by decide⟩
  exact raw_mode_keeps_registers _ _ _ _ _ hraw

/-- The three fault exits of `sp_exe_in`: each writes its own code to the
status register `regs[0x0A]` and nothing else in the bank. -/
theorem sp_exe_in_fault_codes (standardTail : List Nat → Nat → SpState → SpState)
    (data : List Nat) (data_len : Nat) (mallocOk : Bool) (st : SpState) :
    (data_len < 10 →
      (sp_exe_in standardTail data data_len mallocOk st).2.regs = st.regs.set 0x0A 0xFFFF) ∧
    (10 ≤ data_len → spReceivedCrc data data_len ≠ spCalculatedCrc data data_len →
      (sp_exe_in standardTail data data_len mallocOk st).2.regs = st.regs.set 0x0A 0xFFFE) ∧
    (10 ≤ data_len → spReceivedCrc data data_len = spCalculatedCrc data data_len →
      mallocOk = true →
      (deStaff ((data.drop 2).take (data_len - 4)) (data_len - 4)
        st.stx_position st.etx_position).ret = -1 →
      (sp_exe_in standardTail data data_len mallocOk st).2.regs = st.regs.set 0x0A 0xFFFC) := by
  refine ⟨?_, ?_, ?_⟩
  · intro h
    simp only [sp_exe_in, if_pos h]
  · intro h hcrc
    have h1 : ¬ data_len < 10 := by omega
    simp only [sp_exe_in, if_neg h1, if_pos hcrc]
  · intro h hcrc hm hd
    have h1 : ¬ data_len < 10 := by omega
    have h2 : ¬ (spReceivedCrc data data_len ≠ spCalculatedCrc data data_len) := by
      simpa using hcrc
    simp only [sp_exe_in, if_neg h1, if_neg h2, hm, Bool.not_true, Bool.false_eq_true,
      if_false, hd, if_true]

/-- C22 fails on the code for the marker fault.  The first frame is valid and
leaves the positions 5 and 7.  The second frame has a valid checksum and
neither `STX` nor `ETX`: from start-up positions it is rejected with `0xFFFC`
in the status register, but after the first frame it is taken as valid (raw
mode is reached) and the status register keeps its value. -/
theorem marker_fault_missed_after_valid_frame :
    (fun r : SpExit × SpState => (r.1, r.2.regs.getD 0x0A 0))
        (sp_exe_in (fun _ _ st => st)
          [0xFF, 0xFF, 0x10, 0x01, 0x80, 0x00, 0x10, 0x1F, 0x03, 0x41, 0x42, 0x43, 0x24, 0xEE]
          14 true ⟨List.replicate 224 7, 0x1D00, 0xFFFF, -1, -1, List.replicate 96 0, 0⟩) =
        (SpExit.markerError, 0xFFFC) ∧
      (fun r : SpExit × SpState => (r.1, r.2.regs.getD 0x0A 0))
        (sp_exe_in (fun _ _ st => st)
          [0xFF, 0xFF, 0x10, 0x01, 0x80, 0x00, 0x10, 0x1F, 0x03, 0x41, 0x42, 0x43, 0x24, 0xEE]
          14 true
          (sp_exe_in (fun _ _ st => st)
            [0xFF, 0xFF, 0x10, 0x01, 0x80, 0x00, 0x10, 0x1F, 0x03, 0x10, 0x02, 0x31, 0x10, 0x03,
              0x82, 0x45] 16 true
            ⟨List.replicate 224 7, 0x1D00, 0xFFFF, -1, -1, List.replicate 96 0, 0⟩).2) =
        (SpExit.raw, 7) := by
  decide

/-- C27 fails on the code: the request `04 10 00 DF 00 02 04 11 22 33 44 1E 8A`
(start 223, count 2) is accepted although `223 + 2 > 224`.  With the memory
cell that follows the 224-register bank shown as index 224, the request is
acknowledged, register 223 takes `1122` and the cell after the bank takes
`3344`. -/
theorem write_multiple_passes_bank_end :
    (fun r : MbResult => (r.response, r.regs.drop 223))
        (uart1_frame (List.replicate 224 4 ++ [0xAAAA])
          [0x04, 0x10, 0x00, 0xDF, 0x00, 0x02, 0x04, 0x11, 0x22, 0x33, 0x44, 0x1E, 0x8A] 13) =
      (some [0x04, 0x10, 0x00, 0xDF, 0x00, 0x02, 0x70, 0x67], [0x1122, 0x3344]) ∧
      MAX_REGS < 223 + 2 := by
  decide

/-! ## Parameter tags -/

/-- C24 fails on the code: a name of 32 characters is stored cut to 31, so the
second call with the identical name does not find it.  On the empty table the
first call returns record 0, the second call returns the new record 1 and the
table then counts two tags. -/
theorem get_or_create_tag_long_name :
    (get_or_create_tag emptyTagTable (List.replicate 32 0x41) 100 true).1 = some 0 ∧
      (get_or_create_tag
        (get_or_create_tag emptyTagTable (List.replicate 32 0x41) 100 true).2
        (List.replicate 32 0x41) 100 true).1 = some 1 ∧
      (get_or_create_tag
        (get_or_create_tag emptyTagTable (List.replicate 32 0x41) 100 true).2
        (List.replicate 32 0x41) 100 true).2.tags_count = 2 := by
  decide

/-- When the search over the first `n` records from `i` fails, the search
over the table with the record after them replaced by one of that name finds
the new record. -/
theorem findTag_set_new (tags : List DataTag) (name : List Nat) (nt : DataTag)
    (hname : nt.name = name) (n : Nat) :
    ∀ i, i + n < tags.length → findTag tags name n i = none →
      findTag (tags.set (i + n) nt) name (n + 1) i = some (i + n) := by
  induction n with
  | zero =>
    intro i hi _
    have hi2 : i < tags.length := by omega
    have hget : (tags.set i nt).getD i default = nt := by
      simp [List.getD, List.getElem?_set, hi2]
    simp only [Nat.add_zero]
    unfold findTag
    rw [hget, if_pos hname]
  | succ n ih =>
    intro i hi hnone
    unfold findTag at hnone
    split_ifs at hnone with hne
    have hstep := ih (i + 1) (by omega) hnone
    have hidx : i + 1 + n = i + (n + 1) := by omega
    rw [hidx] at hstep
    have hget : ((tags.set (i + (n + 1)) nt).getD i default) = tags.getD i default := by
      simp [List.getD, List.getElem?_set]
    unfold findTag
    rw [hget, if_neg hne]
    exact hstep

/-- For a name of at most 31 characters and a table with all its `MAX_TAGS`
records, a second call of `get_or_create_tag` with the name returns the record
of the first call and leaves the table as the first call left it. -/
theorem get_or_create_tag_short_name (tbl : TagTable) (name : List Nat)
    (history_size history_size2 : Nat) (i : Nat)
    (hname : name.length ≤ 31) (htags : tbl.tags.length = MAX_TAGS)
    (hfirst : (get_or_create_tag tbl name history_size true).1 = some i) :
    get_or_create_tag (get_or_create_tag tbl name history_size true).2 name history_size2 true
      = (some i, (get_or_create_tag tbl name history_size true).2) := by
  have htake : name.take 31 = name := List.take_of_length_le hname
  unfold get_or_create_tag at hfirst ⊢
  cases hfind : findTag tbl.tags name tbl.tags_count 0 with
  | some k =>
    simp only [hfind] at hfirst ⊢
    simp only [Option.some.injEq] at hfirst
    simp [hfind, hfirst]
  | none =>
    simp only [hfind] at hfirst ⊢
    by_cases hfull : tbl.tags_count ≥ MAX_TAGS
    · simp [hfull] at hfirst
    · have hlt : tbl.tags_count < tbl.tags.length := by omega
      have hc : tbl.tags_count < 50 := by simpa [MAX_TAGS] using hfull
      have hmod : (tbl.tags_count + 1) % 256 = tbl.tags_count + 1 := by omega
      simp only [hfull, if_false, Bool.not_true, Bool.false_eq_true, htake, hmod] at hfirst ⊢
      by_cases hh : history_size > 0
      · simp only [hh, if_true, Option.some.injEq] at hfirst ⊢
        have hnew := findTag_set_new tbl.tags name
          { tbl.tags.getD tbl.tags_count default with
            name := name, history := some (List.replicate history_size 0),
            history_size := history_size, history_index := 0, current_value := 0,
            last_update := 0, flags := 0 } rfl tbl.tags_count 0 (by omega) hfind
        simp only [Nat.zero_add] at hnew
        subst hfirst
        simp only [hnew]
      · simp only [hh, if_false, Option.some.injEq] at hfirst ⊢
        have hnew := findTag_set_new tbl.tags name
          { tbl.tags.getD tbl.tags_count default with
            name := name, history := none,
            history_size := 0, history_index := 0, current_value := 0,
            last_update := 0, flags := 0 } rfl tbl.tags_count 0 (by omega) hfind
        simp only [Nat.zero_add] at hnew
        subst hfirst
        simp only [hnew]

/-- The state of a tag after a run of updates, started with an empty history
of capacity `c` and index 0. -/
theorem update_tag_value_run (c : Nat) (hc : 0 < c) (t0 : DataTag)
    (h0 : t0.history = some (List.replicate c 0)) (hs : t0.history_size = c)
    (hi : t0.history_index = 0) (vs : List Nat) :
    (vs.foldl update_tag_value t0).history_size = c ∧
      (vs.foldl update_tag_value t0).history_index = vs.length % c ∧
      (vs ≠ [] → (vs.foldl update_tag_value t0).current_value = vs.getLast?.getD 0) ∧
      ∃ h, (vs.foldl update_tag_value t0).history = some h ∧ h.length = c ∧
        (∀ j, j < vs.length → (∀ j2, j < j2 → j2 < vs.length → j2 % c ≠ j % c) →
          h.getD (j % c) 0 = vs.getD j 0) ∧
        (∀ i, vs.length ≤ i → i < c → h.getD i 0 = 0) := by
  induction vs using List.reverseRecOn with
  | nil =>
    refine ⟨hs, by simp [hi], by simp, List.replicate c 0, h0, by simp, ?_, ?_⟩
    · intro j hj; simp at hj
    · intro i _ hic
      simp [List.getElem?_replicate, hic]
  | append_singleton vs v ih =>
    obtain ⟨ihs, ihi, _, h, hh, hlen, hrecent, hfree⟩ := ih
    have hpos : (vs.foldl update_tag_value t0).history_size > 0 := by omega
    have hstep : (vs ++ [v]).foldl update_tag_value t0 =
        { vs.foldl update_tag_value t0 with
          current_value := v
          history := some (h.set (vs.length % c) v)
          history_index := (vs.length % c + 1) % c } := by
      rw [List.foldl_append, List.foldl_cons, List.foldl_nil]
      have hc2 : c > 0 := hc
      simp only [update_tag_value, hh, ihi, ihs, if_pos hc2]
    have hmod : vs.length % c < h.length := by rw [hlen]; exact Nat.mod_lt _ hc
    rw [hstep]
    refine ⟨ihs, ?_, ?_, h.set (vs.length % c) v, rfl, by simp [hlen], ?_, ?_⟩
    · simp only [List.length_append, List.length_cons, List.length_nil]
      exact Nat.mod_add_mod _ _ _
    · intro _
      simp
    · intro j hj hlast
      simp only [List.length_append, List.length_cons, List.length_nil] at hj hlast
      by_cases hjn : j = vs.length
      · subst hjn
        rw [getD_set_eq _ _ _ hmod]
        simp
      · have hjlt : j < vs.length := by omega
        have hne : j % c ≠ vs.length % c := fun e => hlast vs.length hjlt (by omega) e.symm
        rw [getD_set_ne _ _ _ _ hne,
          hrecent j hjlt (fun j2 h1 h2 => hlast j2 h1 (by omega))]
        rw [List.getD_append _ _ _ _ hjlt]
    · intro i hi2 hic
      simp only [List.length_append, List.length_cons, List.length_nil] at hi2
      have hn : vs.length % c = vs.length := Nat.mod_eq_of_lt (by omega)
      have hne : i ≠ vs.length % c := by omega
      rw [getD_set_ne _ _ _ _ hne]
      exact hfree i (by omega) hic

/-- C25: for a tag just created with capacity `c > 0` (empty history, index 0)
and every sequence of updates `v1..vn`, `update_tag_value` leaves
`current_value = vn`, `history_index = n mod c`, which is below `c`, and in each
history slot the most recent value written at a position congruent to it
modulo `c`, the slots not yet reached being 0; after `c + 1` updates slot 0
holds `v(c+1)` and the slots `1..c-1` hold `v2..vc`. -/
theorem update_tag_value_ring (c : Nat) (hc : 0 < c) (t0 : DataTag)
    (h0 : t0.history = some (List.replicate c 0)) (hs : t0.history_size = c)
    (hi : t0.history_index = 0) (vs : List Nat) :
    (vs ≠ [] → (vs.foldl update_tag_value t0).current_value = vs.getLast?.getD 0) ∧
      (vs.foldl update_tag_value t0).history_index = vs.length % c ∧
      (vs.foldl update_tag_value t0).history_index < c ∧
      ∃ h, (vs.foldl update_tag_value t0).history = some h ∧ h.length = c ∧
        (∀ j, j < vs.length → (∀ j2, j < j2 → j2 < vs.length → j2 % c ≠ j % c) →
          h.getD (j % c) 0 = vs.getD j 0) ∧
        (∀ i, vs.length ≤ i → i < c → h.getD i 0 = 0) ∧
        (vs.length = c + 1 →
          h.getD 0 0 = vs.getD c 0 ∧ ∀ i, 1 ≤ i → i < c → h.getD i 0 = vs.getD i 0) := by
  obtain ⟨_, hidx, hcur, h, hh, hlen, hrecent, hfree⟩ :=
    update_tag_value_run c hc t0 h0 hs hi vs
  refine ⟨hcur, hidx, by rw [hidx]; exact Nat.mod_lt _ hc, h, hh, hlen, hrecent, hfree, ?_⟩
  intro hn
  constructor
  · have := hrecent c (by omega) (fun j2 h1 h2 => by omega)
    rwa [Nat.mod_self] at this
  · intro i h1 hic
    have hmi : i % c = i := Nat.mod_eq_of_lt hic
    have := hrecent i (by omega) (fun j2 h2 h3 => by
      rw [hmi]
      by_cases hj : j2 = c
      · subst hj; rw [Nat.mod_self]; omega
      · have : j2 < c := by omega
        rw [Nat.mod_eq_of_lt this]; omega)
    rwa [hmi] at this

/-- C25, at the tag created for the name `T` with capacity 3 on the empty
table and the four updates 10, 20, 30, 40: the history ends as 40, 20, 30. -/
theorem update_tag_value_ring_witness :
    ([10, 20, 30, 40].foldl update_tag_value
        ((get_or_create_tag emptyTagTable [0x54] 3 true).2.tags.getD 0 default)).history =
        some [40, 20, 30] ∧
      ([10, 20, 30, 40].foldl update_tag_value
        ((get_or_create_tag emptyTagTable [0x54] 3 true).2.tags.getD 0 default)).history_index =
        [10, 20, 30, 40].length % 3 :=
  ⟨by decide,
    (update_tag_value_ring 3 (by decide)
      ((get_or_create_tag emptyTagTable [0x54] 3 true).2.tags.getD 0 default)
      (by decide) (by decide) (by decide) [10, 20, 30, 40]).2.1⟩

/-! ## Template-guided extraction -/

/-- C26: on the payload `TEMP = 23.5` followed by the byte `0xFF` and on the
payload `TEMP=23,5`, the extraction for the name `TEMP` hands the text `23.5`
to the number conversion, whatever that conversion is: it finds the value the
conversion gives for `23.5`. -/
theorem extract_parameter_value_temp (V : Type) (strtof : List Nat → Option V) :
    extract_parameter_value strtof
        [0x54, 0x45, 0x4D, 0x50, 0x20, 0x3D, 0x20, 0x32, 0x33, 0x2E, 0x35, 0xFF]
        [0x54, 0x45, 0x4D, 0x50]
      = (match strtof [0x32, 0x33, 0x2E, 0x35] with
         | some v => Extract.found v
         | none => Extract.notFound) ∧
    extract_parameter_value strtof
        [0x54, 0x45, 0x4D, 0x50, 0x3D, 0x32, 0x33, 0x2C, 0x35]
        [0x54, 0x45, 0x4D, 0x50]
      = (match strtof [0x32, 0x33, 0x2E, 0x35] with
         | some v => Extract.found v
         | none => Extract.notFound) :=
  ⟨rfl, rfl⟩

/-- The loop of `extract_parameter_value` stays inside the payload as long as
the index, the iterations left and the name length together do not pass the
payload length. -/
theorem extractLoop_in_payload {V : Type} (strtof : List Nat → Option V)
    (data param_name : List Nat) (n i : Nat)
    (h : n = 0 ∨ i + n + param_name.length ≤ data.length + 1) :
    extractLoop strtof data param_name n i ≠ Extract.outOfPayload := by
  induction n generalizing i with
  | zero => simp [extractLoop]
  | succ n ih =>
    have hn : i + 1 + n + param_name.length ≤ data.length + 1 := by omega
    have h1 := ih (i + 1) (Or.inr hn)
    unfold extractLoop
    split_ifs with h2 h3
    · omega
    · cases extractAt strtof data param_name.length i with
      | none => simpa using h1
      | some v => simp
    · exact h1

/-- With a name no longer than the payload, `extract_parameter_value` looks
only at payload bytes. -/
theorem extract_parameter_value_in_payload {V : Type} (strtof : List Nat → Option V)
    (data param_name : List Nat) (hlen : data.length < 4294967296)
    (h : param_name.length ≤ data.length) :
    extract_parameter_value strtof data param_name ≠ Extract.outOfPayload := by
  unfold extract_parameter_value
  apply extractLoop_in_payload
  have : (data.length + 4294967296 - param_name.length) % 4294967296
      = data.length - param_name.length := by omega
  rw [this]
  omega

/-- C30: with the payload `AB` and the name `TEMP`, longer than the payload,
the first comparison of `extract_parameter_value` is asked for bytes at indices
2 and 3, beyond the two payload bytes, whatever the number conversion is. -/
theorem extract_parameter_value_long_name (V : Type) (strtof : List Nat → Option V) :
    extract_parameter_value strtof [0x41, 0x42] [0x54, 0x45, 0x4D, 0x50]
      = Extract.outOfPayload :=
  rfl

/-! ## Splitting a response into fields -/

/-- On bytes without `FF`, `spanField` stops at the first `HT`. -/
theorem spanField_no_FF (l : List Nat) (h : FF ∉ l) :
    spanField l = (l.takeWhile (fun b => b != HT), l.dropWhile (fun b => b != HT)) := by
  induction l with
  | nil => rfl
  | cons b rest ih =>
    have hb : b ≠ FF := fun e => h (by simp [e])
    have hr : FF ∉ rest := fun e => h (by simp [e])
    unfold spanField
    by_cases hht : b = HT
    · simp [hht, List.takeWhile, List.dropWhile]
    · have hne : (b != HT) = true := by simpa using hht
      simp [hht, hb, ih hr, List.takeWhile, List.dropWhile, hne]

/-- On bytes without `FF`, `spanToFF` passes them all. -/
theorem spanToFF_no_FF (l : List Nat) (h : FF ∉ l) : spanToFF l = (l, []) := by
  induction l with
  | nil => rfl
  | cons b rest ih =>
    have hb : b ≠ FF := fun e => h (by simp [e])
    have hr : FF ∉ rest := fun e => h (by simp [e])
    unfold spanToFF
    simp [hb, ih hr]

/-- The bytes left by `dropWhile` are a part of the list. -/
theorem not_mem_dropWhile (l : List Nat) (p : Nat → Bool) (h : FF ∉ l) :
    FF ∉ l.dropWhile p :=
  fun e => h ((List.dropWhile_sublist p).subset e)

/-- On a record without `FF`, `process_param_block` gives the fields the
specification names. -/
theorem process_param_block_eq (block : List Nat) (h : FF ∉ block) :
    process_param_block block = recordFields block := by
  cases block with
  | nil => rfl
  | cons b rest =>
    have hr : FF ∉ rest := fun e => h (by simp [e])
    have hbody : FF ∉ (if b = HT then rest else b :: rest) := by
      split_ifs
      · exact hr
      · exact h
    have hrec : (if (b :: rest).head? = some HT then (b :: rest).tail else b :: rest)
        = (if b = HT then rest else b :: rest) := by simp
    unfold process_param_block recordFields
    simp only [hrec]
    generalize (if b = HT then rest else b :: rest) = body at hbody
    rw [spanField_no_FF body hbody]
    simp only []
    have hd := not_mem_dropWhile body (fun b => b != HT) hbody
    cases hv : body.dropWhile (fun b => b != HT) with
    | nil => simp
    | cons c r1 =>
      rw [hv] at hd
      have hr1 : FF ∉ r1 := fun e => hd (by simp [e])
      have hc : c = HT := by
        have := List.head_dropWhile_not (fun b => b != HT) body (by simp [hv])
        simpa [hv] using this
      simp only [hc, if_true, List.tail_cons]
      rw [spanField_no_FF r1 hr1]
      simp only []
      have hd2 := not_mem_dropWhile r1 (fun b => b != HT) hr1
      cases hu : r1.dropWhile (fun b => b != HT) with
      | nil => simp
      | cons d r2 =>
        rw [hu] at hd2
        have hr2 : FF ∉ r2 := fun e => hd2 (by simp [e])
        have hdd : d = HT := by
          have := List.head_dropWhile_not (fun b => b != HT) r1 (by simp [hu])
          simpa [hu] using this
        simp only [hdd, if_true, List.tail_cons]
        rw [spanToFF_no_FF r2 hr2]

/-- The splitting loop, started in the middle of a record, gives the fields
found so far followed by the fields of the non-empty records still ahead, cut
at `MAX_BLOCKS` fields in all. -/
theorem splitLoop_eq (rest : List Nat) :
    ∀ (cur : List Nat) (params : List param_block_t), FF ∉ cur →
      params.length ≤ MAX_BLOCKS →
      splitLoop rest cur params
        = params ++ ((((rest.splitOnP (fun x => x == FF)).modifyHead (fun r => cur ++ r)).filter
            (fun r => r ≠ [])).take (MAX_BLOCKS - params.length)).map recordFields := by
  induction rest with
  | nil =>
    intro cur params hcur hlen
    unfold splitLoop
    by_cases hc : cur = []
    · simp [hc, List.modifyHead]
    · by_cases hl : params.length < MAX_BLOCKS
      · have hpos : MAX_BLOCKS - params.length = (MAX_BLOCKS - params.length - 1) + 1 := by omega
        rw [hpos]
        simp [hc, hl, List.modifyHead, process_param_block_eq cur hcur]
      · have hz : MAX_BLOCKS - params.length = 0 := by omega
        simp [hl, hz]
  | cons b rest ih =>
    intro cur params hcur hlen
    unfold splitLoop
    by_cases hl : params.length < MAX_BLOCKS
    · simp only [hl, if_true]
      by_cases hb : b = FF
      · have hsplit : List.splitOnP (fun x => x == FF) (b :: rest)
            = [] :: List.splitOnP (fun x => x == FF) rest := by
          rw [List.splitOnP_cons]; simp [hb]
        have hid : List.modifyHead (fun r => ([] : List Nat) ++ r)
            (List.splitOnP (fun x => x == FF) rest) = List.splitOnP (fun x => x == FF) rest := by
          cases List.splitOnP (fun x => x == FF) rest <;> simp [List.modifyHead]
        simp only [hb, if_true, hsplit, List.modifyHead, List.append_nil]
        by_cases hc : cur = []
        · rw [ih [] params (by simp) hlen, hid]
          simp [hc]
        · have hlen2 : (params ++ [process_param_block cur]).length ≤ MAX_BLOCKS := by
            simp; omega
          have hpos : MAX_BLOCKS - params.length
              = (MAX_BLOCKS - (params ++ [process_param_block cur]).length) + 1 := by
            simp; omega
          rw [if_pos hc, ih [] _ (by simp) hlen2, hid, hpos]
          simp [hc, process_param_block_eq cur hcur]
      · have hsplit : List.splitOnP (fun x => x == FF) (b :: rest)
            = List.modifyHead (List.cons b) (List.splitOnP (fun x => x == FF) rest) := by
          rw [List.splitOnP_cons]; simp [hb]
        have hcur2 : FF ∉ cur ++ [b] := by
          simp only [List.mem_append, List.mem_singleton, not_or]
          exact ⟨hcur, fun e => hb e.symm⟩
        have hcomp : ((fun r => cur ++ r) ∘ List.cons b) = (fun r => (cur ++ [b]) ++ r) := by
          funext r; simp
        rw [if_neg hb, ih (cur ++ [b]) params hcur2 hlen, hsplit,
          List.modifyHead_modifyHead, hcomp]
    · have hz : MAX_BLOCKS - params.length = 0 := by omega
      simp [hl, hz]

/-- C28: for function 0x03, `handle_read_parameter` produces one field for
each non-empty record of the payload (the bytes strictly between the STX and
ETX positions) delimited by `FF`, in payload order and never more than 20;
each field has the record's bytes up to the first `HT` as value (after an
optional leading `HT`), the next span up to `HT` as units and the remainder
as timestamp. -/
theorem handle_read_parameter_fields (regs data : List Nat) (stx_position etx_position : Nat) :
    (handle_read_parameter regs 0x03 data stx_position etx_position).1
      = payloadFields ((data.drop (stx_position + 1)).take (etx_position - (stx_position + 1))) ∧
    (handle_read_parameter regs 0x03 data stx_position etx_position).1.length ≤ 20 := by
  have key : (handle_read_parameter regs 0x03 data stx_position etx_position).1
      = payloadFields
          ((data.drop (stx_position + 1)).take (etx_position - (stx_position + 1))) := by
    unfold handle_read_parameter payloadFields
    by_cases hz : etx_position - (stx_position + 1) = 0
    · simp [hz, List.splitOn]
    · have hid : ∀ l : List (List Nat), List.modifyHead (fun r => ([] : List Nat) ++ r) l = l := by
        intro l; cases l <;> simp [List.modifyHead]
      simp only [hz, if_false, if_neg (show ¬ (3 : Nat) ≠ 3 from fun h => h rfl)]
      rw [splitLoop_eq _ [] [] (by simp) (by simp), hid]
      simp [List.splitOn, MAX_BLOCKS]
  refine ⟨key, ?_⟩
  rw [key]
  unfold payloadFields
  simp [List.length_take]

/-! ## SP link task, transmission -/

/-- The stuffed form is at most twice as long as the input. -/
theorem stuff_length_le (input : List Nat) : (stuff input).length ≤ 2 * input.length := by
  rw [stuff_length]
  have := List.countP_le_length isMarker (l := input)
  unfold markerCount
  omega

/-- Writing two bytes right after the first part of a buffer and taking the
bytes up to them. -/
theorem take_set_set_append (front back : List Nat) (x y : Nat) (h : 2 ≤ back.length) :
    (((front ++ back).set front.length x).set (front.length + 1) y).take (front.length + 2)
      = front ++ [x, y] := by
  match back, h with
  | a :: b :: rest, _ =>
    have h1 : (front ++ a :: b :: rest).set front.length x = front ++ x :: b :: rest := by
      rw [List.set_append_right _ _ (le_refl _)]; simp
    have h2 : (front ++ x :: b :: rest).set (front.length + 1) y = front ++ x :: y :: rest := by
      rw [List.set_append_right _ _ (by omega)]; simp
    rw [h1, h2]
    have h3 : front ++ x :: y :: rest = (front ++ [x, y]) ++ rest := by simp
    rw [h3, List.take_left' (by simp)]

/-- C23, as the code has it: for a command value other than `0xFFFF` whose low
byte selects a readable template with length byte `L <= 95` and payload `P`.
When one of the two buffer allocations fails, nothing is transmitted and the
command register is reset to `0xFFFF`.  When both succeed (the second giving
the `2 * (4 + L)` bytes asked for), the command block writes the stuffed form
of `SOH, DAD, SAD, ISI` and `P` and the two checksum bytes, `4 + L` plus the
number of markers plus 2 bytes in all, into that buffer, which stays inside it
exactly when at least two of the `4 + L` bytes are not markers; in that case
it transmits the stuffed form followed by the SP CRC16 (high byte first) of
the stuffed bytes after the leading `DLE SOH`, and afterwards the command
register holds `0xFFFF`. -/
theorem uart2_command_transmits (request_partition : Option (List Nat))
    (stack heap : List Nat) (mallocExtended mallocStaffed : Bool) (st : SpState)
    (L : Nat) (P pad : List Nat)
    (hcmd : st.regs.getD 0x0B 0 ≠ 0xFFFF)
    (hregs : 0x0B < st.regs.length)
    (hread : request_read_file request_partition (st.regs.getD 0x0B 0 % 256)
      = some (L :: (P ++ pad)))
    (hP : P.length = L) (hL : L ≤ 95) :
    ((mallocExtended = false ∨ mallocStaffed = false) →
      (uart2_command request_partition stack heap mallocExtended mallocStaffed st).tx
          = Uart2Tx.nothing ∧
        (uart2_command request_partition stack heap mallocExtended mallocStaffed
          st).st.regs.getD 0x0B 0 = 0xFFFF) ∧
    (mallocExtended = true → mallocStaffed = true → 2 * (4 + L) ≤ heap.length →
      (uart2_command request_partition stack heap mallocExtended mallocStaffed st).staffed_size
          = 2 * (4 + L) ∧
        (uart2_command request_partition stack heap mallocExtended mallocStaffed st).written
          = 4 + L + markerCount
              ([SOH, st.regs.getD 0x04 0 % 256, st.regs.getD 0x05 0 % 256, ISI] ++ P) + 2 ∧
        ((uart2_command request_partition stack heap mallocExtended mallocStaffed st).written
            ≤ (uart2_command request_partition stack heap mallocExtended mallocStaffed
                st).staffed_size ↔
          markerCount
              ([SOH, st.regs.getD 0x04 0 % 256, st.regs.getD 0x05 0 % 256, ISI] ++ P) + 2
            ≤ 4 + L) ∧
        (markerCount
              ([SOH, st.regs.getD 0x04 0 % 256, st.regs.getD 0x05 0 % 256, ISI] ++ P) + 2
            ≤ 4 + L →
          (uart2_command request_partition stack heap mallocExtended mallocStaffed st).tx
              = Uart2Tx.sent
                  (commandFrame (st.regs.getD 0x04 0 % 256) (st.regs.getD 0x05 0 % 256) P) ∧
            (uart2_command request_partition stack heap mallocExtended mallocStaffed
              st).st.regs.getD 0x0B 0 = 0xFFFF)) := by
  have hset : (((st.regs.set 0x0A 0x0000).set 0x0B 0xFFFF)).getD 0x0B 0 = 0xFFFF :=
    getD_set_eq _ _ _ (by simpa using hregs)
  constructor
  · intro hfail
    unfold uart2_command
    simp only [hcmd, if_false, hread]
    by_cases he : mallocExtended = false
    · simp only [he, if_true, hset, and_self]
    · have he2 : mallocExtended = true := by simpa using he
      have hs : mallocStaffed = false := by
        rcases hfail with h | h
        · exact absurd h he
        · exact h
      simp only [he2, hs, Bool.true_eq_false, if_false, if_true, hset, and_self]
  · intro he hs hheap
    subst he hs
    have hd4 : (st.regs.set 0x0A 0x0000).getD 0x04 0 = st.regs.getD 0x04 0 :=
      getD_set_ne _ _ _ _ (by decide)
    have hd5 : (st.regs.set 0x0A 0x0000).getD 0x05 0 = st.regs.getD 0x05 0 :=
      getD_set_ne _ _ _ _ (by decide)
    generalize hdad : st.regs.getD 0x04 0 % 256 = dad at *
    generalize hsad : st.regs.getD 0x05 0 % 256 = sad at *
    have hpay : (((L :: (P ++ pad)) ++ stack).drop 1).take L = P := by
      have : ((L :: (P ++ pad)) ++ stack).drop 1 = P ++ (pad ++ stack) := by simp
      rw [this, List.take_left' hP]
    have hlen : ([SOH, dad, sad, ISI] ++ P).length = 4 + L := by simp [hP]; omega
    have hm1 : (4 + L) % 65536 % 256 = 4 + L := by omega
    have htake : ([SOH, dad, sad, ISI] ++ P).take (4 + L) = [SOH, dad, sad, ISI] ++ P := by
      rw [← hlen]; exact List.take_length _
    have hfit : (stuff ([SOH, dad, sad, ISI] ++ P)).length ≤ 2 * (4 + L) := by
      rw [← hlen]; exact stuff_length_le _
    have hstaff := staff_fits ([SOH, dad, sad, ISI] ++ P) heap (2 * (4 + L)) hfit hheap
    have hge : 2 ≤ (stuff ([SOH, dad, sad, ISI] ++ P)).length := by
      simp [stuff, isMarker, SOH]
    have hslen := stuff_length ([SOH, dad, sad, ISI] ++ P)
    rw [hlen] at hslen
    unfold uart2_command commandFrame
    simp only [hcmd, if_false, hread, List.getD_cons_zero, hd4, hd5, hdad, hsad, hpay, hm1,
      htake, hstaff, Bool.true_eq_false]
    generalize hs : stuff ([SOH, dad, sad, ISI] ++ P) = s at *
    generalize hmc : markerCount ([SOH, dad, sad, ISI] ++ P) = m at *
    have hneg : ¬ ((s.length : Nat) : Int) < 0 := by omega
    have hlt : ¬ ((s.length : Nat) : Int) < 2 := by omega
    simp only [hneg, hlt, if_false, Int.toNat_ofNat, hset, and_true, true_and]
    refine ⟨by omega, by omega, ?_⟩
    intro hroom
    have hcrc : ((s ++ heap.drop s.length).drop 2).take (s.length - 2) = s.drop 2 := by
      rw [List.drop_append_of_le_length hge]
      exact List.take_left' (by simp)
    have hfin : (s.length + 2) % 65536 = s.length + 2 := by omega
    rw [hcrc, hfin, take_set_set_append s (heap.drop s.length) _ _ (by simp; omega)]

/-- C23, at the command `0x0001` with record 1 holding the three-byte template
`1F 02 41`, `DAD = 0` and `SAD = 0x80`, both allocations succeeding and the
second block having its 14 bytes: the frame sent is
`10 01 00 80 10 1F 10 1F 10 02 41 A3 8A`, 13 bytes. -/
theorem uart2_command_transmits_witness :
    (uart2_command
        (some (List.replicate 96 0xFF ++ (3 :: ([0x1F, 0x02, 0x41] ++ List.replicate 3932 0xFF))))
        [] (List.replicate 14 0) true true
        ⟨((List.replicate 224 0).set 0x05 0x80).set 0x0B 0x0001, 0, 0xFFFF, -1, -1, [], 0⟩).tx
      = Uart2Tx.sent [0x10, 0x01, 0x00, 0x80, 0x10, 0x1F, 0x10, 0x1F, 0x10, 0x02, 0x41, 0xA3, 0x8A] :=
  (((uart2_command_transmits
    (some (List.replicate 96 0xFF ++ (3 :: ([0x1F, 0x02, 0x41] ++ List.replicate 3932 0xFF))))
    [] (List.replicate 14 0) true true
    ⟨((List.replicate 224 0).set 0x05 0x80).set 0x0B 0x0001, 0, 0xFFFF, -1, -1, [], 0⟩
    3 [0x1F, 0x02, 0x41] (List.replicate 92 0xFF)
    (by decide)
    (by simp only [List.length_set, List.length_replicate]; decide)
    (by decide) (by decide) (by decide)).2 rfl rfl (by decide)).2.2.2 (by decide)).1

/-- The checksum written past the buffer: with the command `0x0000`, record 0
holding an empty template (length byte 0), `DAD = 1` and `SAD = 0x80`, the
header `01 01 80 1F` has three markers; the buffer asked for has 8 bytes and
the command block writes 9, the last one into the byte that follows it. -/
theorem uart2_command_checksum_past_buffer :
    (fun r : Uart2Command => (r.staffed_size, r.written))
        (uart2_command (some (0 :: List.replicate 4031 0xFF)) [] (List.replicate 8 0 ++ [0xEE])
          true true
          ⟨(((List.replicate 224 0).set 0x04 0x01).set 0x05 0x80).set 0x0B 0x0000,
            0, 0xFFFF, -1, -1, [], 0⟩)
      = (8, 9) := by
  decide

/-- C23 fails as stated: with the command `0x0001`, record 1 holding the
three-byte template `1F 02 41`, and no memory for the first buffer, the
command block sends nothing and still resets the command register. -/
theorem uart2_command_without_memory :
    request_read_file
        (some (List.replicate 96 0xFF ++ (3 :: ([0x1F, 0x02, 0x41] ++ List.replicate 3932 0xFF))))
        (0x0001 % 256)
      = some (3 :: ([0x1F, 0x02, 0x41] ++ List.replicate 92 0xFF)) ∧
    (uart2_command
        (some (List.replicate 96 0xFF ++ (3 :: ([0x1F, 0x02, 0x41] ++ List.replicate 3932 0xFF))))
        [] (List.replicate 16 0) false true
        ⟨((List.replicate 224 0).set 0x05 0x80).set 0x0B 0x0001, 0, 0xFFFF, -1, -1, [], 0⟩).tx
      = Uart2Tx.nothing ∧
    (uart2_command
        (some (List.replicate 96 0xFF ++ (3 :: ([0x1F, 0x02, 0x41] ++ List.replicate 3932 0xFF))))
        [] (List.replicate 16 0) false true
        ⟨((List.replicate 224 0).set 0x05 0x80).set 0x0B 0x0001, 0, 0xFFFF, -1, -1, [], 0⟩
      ).st.regs.getD 0x0B 0 = 0xFFFF := by
  decide

/-- C29: with an erased request partition (every byte `0xFF`) and the command
`0x0000`, the command block copies 255 bytes starting at `file_data[1]`, of
which 160 lie after the 96-byte record, and sends the frame
`10 01 00 80 91 88`. -/
theorem uart2_command_absent_template :
    request_read_file (some (List.replicate 4032 0xFF)) (0x0000 % 256)
      = some (List.replicate 96 0xFF) ∧
    (uart2_command (some (List.replicate 4032 0xFF)) (List.replicate 160 0)
        (List.replicate 8 0) true true
        ⟨((List.replicate 224 0).set 0x05 0x80).set 0x0B 0x0000, 0, 0xFFFF, -1, -1, [], 0⟩).copied
      = 255 ∧
    (uart2_command (some (List.replicate 4032 0xFF)) (List.replicate 160 0)
        (List.replicate 8 0) true true
        ⟨((List.replicate 224 0).set 0x05 0x80).set 0x0B 0x0000, 0, 0xFFFF, -1, -1, [], 0⟩).tx
      = Uart2Tx.sent [0x10, 0x01, 0x00, 0x80, 0x91, 0x88] := by
  decide

end MbSpv33

